import Mathlib

/-!
# Shape inference of the MIGraph operators

A shallow embedding of `src/include/migraph/operators.hpp` and
`src/include/migraph/errors.hpp`: the shape validator `check_shapes` and the
`compute_shape` member of the operators, followed by theorems about them.

Conventions of the embedding.

* A call that can throw returns `Except failure α`.  `failure.exception` is a
  `migraph::exception` raised through `MIGRAPH_THROW`, `failure.out_of_range` is
  the `std::out_of_range` of `std::vector::at`, and `failure.assertion` is a
  failed `assert`, which aborts the process.
* `std::size_t` values are natural numbers below `2 ^ 64`; the arithmetic the
  operators perform on them is written with the wrapping operations of `u64`.
* `assert` is compiled out when `NDEBUG` is defined, so every function that
  contains one takes the build flavour `ndebug` as an argument.
* The operators take the value of the expressions they evaluate in floating
  point from an `fp_model` argument; `fp_ieee` is their value in IEEE 754
  arithmetic.
-/

namespace migraph

/-! ## errors.hpp -/

/-- The ways in which a call can end without returning a value. -/
inductive failure where
  /-- a `migraph::exception`; `what` is the text of the exception -/
  | exception (what : String)
  /-- the `std::out_of_range` thrown by `std::vector::at` -/
  | out_of_range
  /-- a failed `assert(expr)`: the process is aborted -/
  | assertion (expr : String)
  deriving DecidableEq, Repr

/-- `make_exception(context, message)`. -/
def make_exception (context : String) (message : String) : failure :=
  failure.exception (context ++ ": " ++ message)

/-- `make_source_context(file, line)`. -/
def make_source_context (file : String) (line : Nat) : String :=
  file ++ ":" ++ toString line

/-- The expansion of `__FILE__` inside `operators.hpp`: the name under which the
header is opened by the translation unit. -/
def FILE : String := "migraph/operators.hpp"

/-- `MIGRAPH_THROW(message)` written on line `line` of `operators.hpp`. -/
def MIGRAPH_THROW {α : Type} (line : Nat) (message : String) : Except failure α :=
  Except.error (make_exception (make_source_context FILE line) message)

/-- `assert(cond)`, where `expr` is the text of the condition. -/
def c_assert (ndebug : Bool) (expr : String) (cond : Bool) : Except failure Unit :=
  if ndebug || cond then Except.ok () else Except.error (failure.assertion expr)

/-- `v.at(i)` of `std::vector`. -/
def vector_at {α : Type} (v : List α) (i : Nat) : Except failure α :=
  match v.get? i with
  | some a => Except.ok a
  | none => Except.error failure.out_of_range

/-! ## Fixed-width integers -/

namespace u64

/-- Number of values of `std::size_t`. -/
def modulus : Nat := 2 ^ 64

/-- Addition of `std::size_t`. -/
def add (a b : Nat) : Nat := (a + b) % modulus

/-- Subtraction of `std::size_t`. -/
def sub (a b : Nat) : Nat := (a % modulus + (modulus - b % modulus)) % modulus

/-- Multiplication of `std::size_t`. -/
def mul (a b : Nat) : Nat := (a * b) % modulus

/-- Division of `std::size_t`; the quotient by zero, undefined in C++, is `0`
here. -/
def div (a b : Nat) : Nat := (a % modulus) / (b % modulus)

end u64

/-- Conversion of a `std::size_t` to `std::ptrdiff_t`: the value is read as a
signed 64-bit number in two's complement. -/
def to_ptrdiff_t (n : Nat) : Int :=
  if n % u64.modulus < 2 ^ 63 then ((n % u64.modulus : Nat) : Int)
  else ((n % u64.modulus : Nat) : Int) - 2 ^ 64

/-- Conversion of a signed integer (`std::ptrdiff_t`, `int64_t`) to
`std::size_t`: reduction modulo `2 ^ 64`. -/
def to_size_t (z : Int) : Nat := (z % 2 ^ 64).toNat

/-- Values of the expressions that the operators evaluate in floating point. -/
structure fp_model where
  /-- `std::ceil(a / static_cast<float>(s)) + 1` converted to `std::ptrdiff_t`,
  for `std::size_t` values `a` and `s` (pooling) -/
  ceil_div_float_succ : Nat → Nat → Int
  /-- `static_cast<std::size_t>(std::ceil(static_cast<double>(a) / s))`, for
  `std::size_t` values `a` and `s` (convolution, modes `same` and `valid`) -/
  ceil_div_double : Nat → Nat → Nat

/-- Rounding of a rational to the nearest integer, ties to the even one. -/
def round_half_even (m : ℚ) : ℤ :=
  if m - ⌊m⌋ < 1 / 2 then ⌊m⌋
  else if 1 / 2 < m - ⌊m⌋ then ⌊m⌋ + 1
  else if ⌊m⌋ % 2 = 0 then ⌊m⌋ else ⌊m⌋ + 1

/-- Rounding of a non-negative real to the nearest binary floating-point number
with a significand of `prec` bits, ties to even (the rounding of IEEE 754
arithmetic; the exponent is not bounded, and the values that occur in the
operators, quotients of two `std::size_t` values, are within the normal range
of `float` and `double`). -/
def fp_round (prec : Nat) (x : ℚ) : ℚ :=
  if x ≤ 0 then 0
  else round_half_even (x / (2 : ℚ) ^ (Int.log 2 x - ((prec : Int) - 1))) *
    (2 : ℚ) ^ (Int.log 2 x - ((prec : Int) - 1))

/-- The floating-point expressions of the operators in IEEE 754 arithmetic,
`float` with a significand of 24 bits and `double` with one of 53 bits: the
integer operands are converted (rounded), the quotient is rounded, `std::ceil`
is exact, the sum with `1` is rounded, and the conversion back to an integer
truncates.  (A quotient by zero and a conversion of a value outside the range
of the integer type, undefined in C++, are what these formulas give.) -/
def fp_ieee : fp_model where
  ceil_div_float_succ := fun a s =>
    ⌊fp_round 24 ((⌈fp_round 24 (fp_round 24 (a : ℚ) / fp_round 24 (s : ℚ))⌉ : ℚ) + 1)⌋
  ceil_div_double := fun a s =>
    to_size_t ⌈fp_round 53 (fp_round 53 (a : ℚ) / fp_round 53 (s : ℚ))⌉

/-! ## The shape class -/

/-- Modelled from the spec: the element types of `shape` (`shape.hpp` is not
among the sources; the spec only says that a shape has an element type). -/
inductive type_t where
  | float_type | double_type | uint8_type | int8_type | uint16_type
  | int16_type | int32_type | int64_type | uint32_type | uint64_type
  deriving DecidableEq, Repr, Inhabited

/-- Modelled from the spec: class `shape` of `shape.hpp`, which is not among the
sources: an element type, the per-axis lengths and the per-axis strides. -/
structure shape where
  type : type_t
  lens : List Nat
  strides : List Nat
  deriving DecidableEq, Repr, Inhabited

/-- Modelled from the spec: the strides of a standard shape, "the row-major
suffix product of `lens`". -/
def calculate_strides : List Nat → List Nat
  | [] => []
  | _ :: ls => ls.prod :: calculate_strides ls

namespace shape

/-- Modelled from the spec: the constructor `shape{t, lens}`, which builds the
standard shape of the given lengths. -/
def standard (t : type_t) (l : List Nat) : shape :=
  { type := t, lens := l, strides := calculate_strides l }

/-- Modelled from the spec: `elements()`, the product of `lens`. -/
def elements (s : shape) : Nat := s.lens.prod

/-- Rank of a shape, `lens().size()`. -/
def rank (s : shape) : Nat := s.lens.length

end shape

/-! ## check_shapes -/

/-- `struct check_shapes`: the shape list under test and the name of the
operator that owns it (empty when built without an operator). -/
structure check_shapes where
  shapes : List shape
  name : String

namespace check_shapes

/-- `check_shapes::prefix()`. -/
def prefix_ (c : check_shapes) : String :=
  if c.name.isEmpty then "" else c.name ++ ": "

/-- `check_shapes::has(n)`. -/
def has (c : check_shapes) (n : Nat) : Except failure check_shapes :=
  if c.shapes.length ≠ n then
    MIGRAPH_THROW 36 (c.prefix_ ++ "Wrong number of arguments: expected " ++ toString n ++
      " but given " ++ toString c.shapes.length)
  else Except.ok c

/-- `check_shapes::only_dims(n)`. -/
def only_dims (c : check_shapes) (n : Nat) : Except failure check_shapes :=
  match c.shapes with
  | [] => Except.ok c
  | front :: _ =>
    if front.lens.length ≠ n then
      MIGRAPH_THROW 47 (c.prefix_ ++ "Only " ++ toString n ++ "d supported")
    else Except.ok c

/-- `check_shapes::all_of(p)`. -/
def all_of (c : check_shapes) (p : shape → Bool) : Bool := c.shapes.all p

/-- `check_shapes::same(f)`. -/
def same {β : Type} [DecidableEq β] (c : check_shapes) (f : shape → β) : Bool :=
  match c.shapes with
  | [] => true
  | front :: _ => c.all_of (fun s => decide (f s = f front))

/-- `check_shapes::same_shape()`. -/
def same_shape (c : check_shapes) : Except failure check_shapes :=
  if !c.same (fun s => s) then MIGRAPH_THROW 55 (c.prefix_ ++ "Shapes do not match")
  else Except.ok c

/-- `check_shapes::same_type()`. -/
def same_type (c : check_shapes) : Except failure check_shapes :=
  if !c.same (fun s => s.type) then MIGRAPH_THROW 62 (c.prefix_ ++ "Types do not match")
  else Except.ok c

/-- `check_shapes::same_dims()`. -/
def same_dims (c : check_shapes) : Except failure check_shapes :=
  if !c.same (fun s => s.lens) then MIGRAPH_THROW 69 (c.prefix_ ++ "Dimensions do not match")
  else Except.ok c

/-- `check_shapes::same_ndims()`. -/
def same_ndims (c : check_shapes) : Except failure check_shapes :=
  if !c.same (fun s => s.lens.length) then
    MIGRAPH_THROW 76 (c.prefix_ ++ "Dimensions do not match")
  else Except.ok c

end check_shapes

/-- `v[i]` of a `std::vector<std::size_t>`; a read past the end, undefined in
C++, yields `0` here. -/
def index (v : List Nat) (i : Nat) : Nat := v.getD i 0

/-- `v[i]` of a `std::vector<int64_t>`; a read past the end, undefined in C++,
yields `0` here. -/
def index_i64 (v : List Int) (i : Nat) : Int := v.getD i 0

/-- `v.front()` of a vector of shapes; on an empty vector, where C++ leaves it
undefined, it is the default shape here. -/
def front (v : List shape) : shape := v.headD default

/-! ## convolution -/

/-- The enumeration `convolution::padding_mode_t`, as the integer that
represents it. -/
abbrev padding_mode_t := Nat

/-- Enumerator `default_`. -/
def padding_mode_t.default_ : padding_mode_t := 0
/-- Enumerator `same`. -/
def padding_mode_t.same : padding_mode_t := 1
/-- Enumerator `valid`. -/
def padding_mode_t.valid : padding_mode_t := 2

/-- `struct convolution`. -/
structure convolution where
  padding : Nat × Nat
  stride : Nat × Nat
  dilation : Nat × Nat
  padding_mode : padding_mode_t

namespace convolution

/-- `convolution::name()`. -/
def name (_ : convolution) : String := "convolution"

/-- The spatial length of the default mode,
`std::size_t(std::max<std::ptrdiff_t>(1, (in - (1 + dilation * (k - 1)) + 2 * padding) / stride + 1))`,
every operation inside `max` being one of `std::size_t`. -/
def default_len (inp k dilation padding stride : Nat) : Nat :=
  to_size_t (max 1 (to_ptrdiff_t
    (u64.add
      (u64.div
        (u64.add (u64.sub inp (u64.add 1 (u64.mul dilation (u64.sub k 1))))
          (u64.mul 2 padding))
        stride)
      1)))

/-- `convolution::compute_shape`. -/
def compute_shape (fp : fp_model) (op : convolution) (inputs : List shape) :
    Except failure shape := do
  let c ← (check_shapes.mk inputs op.name).has 2
  let c ← c.same_type
  let c ← c.same_ndims
  let _ ← c.only_dims 4
  let input ← vector_at inputs 0
  let weights ← vector_at inputs 1
  let t := input.type
  if op.padding_mode = padding_mode_t.default_ then
    pure (shape.standard t
      [index input.lens 0, index weights.lens 0,
        default_len (index input.lens 2) (index weights.lens 2) op.dilation.1 op.padding.1
          op.stride.1,
        default_len (index input.lens 3) (index weights.lens 3) op.dilation.2 op.padding.2
          op.stride.2])
  else if op.padding_mode = padding_mode_t.same then
    pure (shape.standard t
      [index input.lens 0, index weights.lens 0,
        fp.ceil_div_double (index input.lens 2) op.stride.1,
        fp.ceil_div_double (index input.lens 3) op.stride.2])
  else if op.padding_mode = padding_mode_t.valid then
    pure (shape.standard t
      [index input.lens 0, index weights.lens 0,
        fp.ceil_div_double (u64.add (u64.sub (index input.lens 2) (index weights.lens 2)) 1)
          op.stride.1,
        fp.ceil_div_double (u64.add (u64.sub (index input.lens 3) (index weights.lens 3)) 1)
          op.stride.2])
  else
    MIGRAPH_THROW 169 "Invalid padding mode"

end convolution

/-! ## pooling -/

/-- `struct pooling`. -/
structure pooling where
  mode : String
  padding : Nat × Nat
  stride : Nat × Nat
  lengths : Nat × Nat

namespace pooling

/-- `pooling::name()`. -/
def name (_ : pooling) : String := "pooling"

/-- The spatial length
`std::size_t(std::max<std::ptrdiff_t>(1, std::ceil((in + 2 * padding - length) / static_cast<float>(stride)) + 1))`:
the numerator is computed in `std::size_t`, the rest in floating point. -/
def spatial_len (fp : fp_model) (inp padding length stride : Nat) : Nat :=
  to_size_t (max 1
    (fp.ceil_div_float_succ (u64.sub (u64.add inp (u64.mul 2 padding)) length) stride))

/-- `pooling::compute_shape`. -/
def compute_shape (ndebug : Bool) (fp : fp_model) (op : pooling) (inputs : List shape) :
    Except failure shape := do
  let c ← (check_shapes.mk inputs op.name).has 1
  let _ ← c.only_dims 4
  let input ← vector_at inputs 0
  let t := input.type
  c_assert ndebug "lengths[0] < (input.lens()[2] + 2 * padding[0])"
    (decide (op.lengths.1 < u64.add (index input.lens 2) (u64.mul 2 op.padding.1)))
  c_assert ndebug "lengths[1] < (input.lens()[3] + 2 * padding[1])"
    (decide (op.lengths.2 < u64.add (index input.lens 3) (u64.mul 2 op.padding.2)))
  pure (shape.standard t
    [index input.lens 0, index input.lens 1,
      spatial_len fp (index input.lens 2) op.padding.1 op.lengths.1 op.stride.1,
      spatial_len fp (index input.lens 3) op.padding.2 op.lengths.2 op.stride.2])

end pooling

/-! ## transpose -/

/-- A vector of `n` elements of `int64_t` filled by `std::iota(.., 0)`. -/
def iota (n : Nat) : List Int := (List.range n).map Int.ofNat

/-- `std::is_permutation(first1, last1, first2)`: whether the range
`[first1, last1)` is a rearrangement of the range of the same length that
starts at `first2`. -/
def is_permutation (range1 range2 : List Int) : Bool :=
  List.isPerm range1 (range2.take range1.length)

/-- `struct transpose`. -/
structure transpose where
  dims : List Int

namespace transpose

/-- `transpose::name()`. -/
def name (_ : transpose) : String := "transpose"

/-- `transpose::compute_shape`. -/
def compute_shape (op : transpose) (inputs : List shape) : Except failure shape := do
  let _ ← (check_shapes.mk inputs op.name).has 1
  let input ← vector_at inputs 0
  let input_lens := input.lens
  let input_strides := input.strides
  let t := input.type
  if op.dims.length ≠ input_lens.length then
    MIGRAPH_THROW 273 "Permutation has wrong number of axes"
  else
    let axes := iota op.dims.length
    if !is_permutation axes op.dims then
      MIGRAPH_THROW 279 "Invalid permutation"
    else
      let output_lens := (List.range input_lens.length).map
        (fun i => index input_lens (to_size_t (index_i64 op.dims i)))
      let output_strides := (List.range input_lens.length).map
        (fun i => index input_strides (to_size_t (index_i64 op.dims i)))
      pure { type := t, lens := output_lens, strides := output_strides }

end transpose

/-! ## reshape -/

/-- `struct reshape`. -/
structure reshape where
  dims : List Int

namespace reshape

/-- `reshape::name()`. -/
def name (_ : reshape) : String := "reshape"

/-- The vector `rdims` after the loop of `reshape::compute_shape`: `dims`
converted to `std::size_t`, every entry whose `dims[i]` is `0` overwritten with
`idims[i]`. -/
def keep_dims (dims : List Int) (idims : List Nat) : List Nat :=
  (List.range dims.length).map
    (fun i => if index_i64 dims i = 0 then index idims i else to_size_t (index_i64 dims i))

/-- The vector `rdims` of `reshape::compute_shape` when it is handed to the
shape constructor: when `dims.back()` is `-1` the last entry is popped and the
source lengths from that position on are appended.  (`dims.back()` of an empty
`dims` and a start position past the end of `idims`, both undefined in C++, give
no match and an empty range here.) -/
def resolve_dims (dims : List Int) (idims : List Nat) : List Nat :=
  let rdims := keep_dims dims idims
  if dims.getLast? = some (-1) then
    rdims.dropLast ++ idims.drop rdims.dropLast.length
  else rdims

/-- `reshape::compute_shape`. -/
def compute_shape (op : reshape) (inputs : List shape) : Except failure shape := do
  let _ ← (check_shapes.mk inputs op.name).has 1
  let idims := (front inputs).lens
  let rdims := resolve_dims op.dims idims
  let s := shape.standard (front inputs).type rdims
  if s.elements ≠ (front inputs).elements then
    MIGRAPH_THROW 337 "Wrong number of elements for reshape"
  else pure s

end reshape

/-! ## activation -/

/-- `struct activation`. -/
structure activation where
  mode : String

namespace activation

/-- `activation::name()`. -/
def name (_ : activation) : String := "activation"

/-- `activation::compute_shape`. -/
def compute_shape (op : activation) (inputs : List shape) : Except failure shape := do
  let _ ← (check_shapes.mk inputs op.name).has 1
  pure (front inputs)

end activation

/-! ## contiguous -/

/-- `struct contiguous`. -/
structure contiguous where

namespace contiguous

/-- `contiguous::name()`. -/
def name (_ : contiguous) : String := "contiguous"

/-- `contiguous::compute_shape`. -/
def compute_shape (op : contiguous) (inputs : List shape) : Except failure shape := do
  let _ ← (check_shapes.mk inputs op.name).has 1
  let lens := (← vector_at inputs 0).lens
  let t := (← vector_at inputs 0).type
  if lens.length < 2 then
    MIGRAPH_THROW 306 "Number of dimensions should exceed 1"
  else pure (shape.standard t lens)

end contiguous

/-! ## gemm -/

/-- `struct gemm`. -/
structure gemm where

namespace gemm

/-- `gemm::name()`. -/
def name (_ : gemm) : String := "gemm"

/-- `gemm::compute_shape`. -/
def compute_shape (op : gemm) (inputs : List shape) : Except failure shape := do
  let c ← (check_shapes.mk inputs op.name).has 2
  let _ ← c.same_type
  let a ← vector_at inputs 0
  let b ← vector_at inputs 1
  let t := a.type
  if index a.lens 1 ≠ index b.lens 0 then
    MIGRAPH_THROW 366 "Inner dimensions do not match"
  else pure (shape.standard t [index a.lens 0, index b.lens 1])

end gemm

/-! ## The unary family -/

/-- `struct unary`. -/
structure unary where

/-- `unary::compute_shape`; the validator is built without an operator, so its
name is empty. -/
def unary.compute_shape (_ : unary) (inputs : List shape) : Except failure shape := do
  let _ ← (check_shapes.mk inputs "").has 1
  vector_at inputs 0

/-- The structs derived from `unary`: `identity`, `abs`, `exp`, `sin`, `cos`,
`tan`, `asin`, `acos`, `atan`, `softmax`, `tanh`, `sigmoid` and `neg`. -/
inductive unary_family where
  | identity | abs | exp | sin | cos | tan | asin | acos | atan | softmax | tanh | sigmoid | neg
  deriving DecidableEq, Repr

namespace unary_family

/-- The member `name()` of each derived struct. -/
def name : unary_family → String
  | identity => "identity"
  | abs => "abs"
  | exp => "exp"
  | sin => "sin"
  | cos => "cos"
  | tan => "tan"
  | asin => "asin"
  | acos => "acos"
  | atan => "atan"
  | softmax => "softmax"
  | tanh => "tanh"
  | sigmoid => "sigmoid"
  | neg => "neg"

/-- The member `compute_shape` of each derived struct, inherited from `unary`. -/
def compute_shape (_ : unary_family) (inputs : List shape) : Except failure shape :=
  unary.compute_shape {} inputs

end unary_family

/-! ## broadcast -/

/-- `std::all_of(v.cbegin(), v.cend(), [&](auto x) { return x == 1; })`. -/
def all_ones (v : List Nat) : Bool := v.all (fun x => decide (x = 1))

/-- `std::equal(range1.begin(), range1.end(), v.begin() + pos)`: whether every
entry of `range1` equals the entry of `v` at the same offset from `pos`.  (The
entries are read with `index`.) -/
def std_equal (range1 : List Nat) (v : List Nat) (pos : Nat) : Bool :=
  (List.range range1.length).all (fun j => decide (index range1 j = index v (pos + j)))

/-- `std::copy(src.begin(), src.end(), dst.begin() + pos)`: the vector `dst`
after the copy.  (A write past the end of `dst`, undefined in C++, is dropped
here.) -/
def std_copy (src : List Nat) (dst : List Nat) (pos : Nat) : List Nat :=
  (List.range dst.length).map
    (fun i => if pos ≤ i ∧ i - pos < src.length then index src (i - pos) else index dst i)

/-- `struct broadcast`; `axis` is a `uint64_t`. -/
structure broadcast where
  axis : Nat

namespace broadcast

/-- `broadcast::name()`. -/
def name (_ : broadcast) : String := "broadcast"

/-- `broadcast::compute_shape`. -/
def compute_shape (ndebug : Bool) (op : broadcast) (inputs : List shape) :
    Except failure shape := do
  let t := (← vector_at inputs 0).type
  let result ← vector_at inputs 0
  let input ← vector_at inputs 1
  let bcast_strides := List.replicate result.lens.length 0
  if all_ones result.lens then
    if op.axis ≠ 0 then
      MIGRAPH_THROW 481 "when broadcasting tensor of size 1, axis should be 0"
    else pure { type := t, lens := result.lens, strides := bcast_strides }
  else
    c_assert ndebug "result.lens().size() - axis >= input.lens().size()"
      (decide (input.lens.length ≤ u64.sub result.lens.length op.axis))
    if !std_equal input.lens result.lens op.axis then
      MIGRAPH_THROW 488 "when broadcasting success sizes must match"
    else
      pure { type := t, lens := result.lens,
             strides := std_copy input.strides bcast_strides op.axis }

end broadcast

/-! ## The binary family -/

/-- `struct binary`; `broadcast` is a `uint64_t`. -/
structure binary where
  broadcast : Nat

/-- `binary::compute_shape`; the validator is built without an operator, so its
name is empty. -/
def binary.compute_shape (_ : binary) (inputs : List shape) : Except failure shape := do
  let c ← (check_shapes.mk inputs "").has 2
  let c ← c.same_type
  let _ ← c.same_dims
  vector_at inputs 0

/-- The structs derived from `binary`: `add`, `sub`, `mul` and `div`. -/
inductive binary_kind where
  | add | sub | mul | div
  deriving DecidableEq, Repr

/-- A value of one of the structs derived from `binary`: which struct it is and
the inherited data member. -/
structure binary_family where
  kind : binary_kind
  base : binary

namespace binary_family

/-- The member `name()` of each derived struct. -/
def name (op : binary_family) : String :=
  match op.kind with
  | binary_kind.add => "add"
  | binary_kind.sub => "sub"
  | binary_kind.mul => "mul"
  | binary_kind.div => "div"

/-- The member `compute_shape` of each derived struct, inherited from
`binary`. -/
def compute_shape (op : binary_family) (inputs : List shape) : Except failure shape :=
  op.base.compute_shape inputs

end binary_family

/-! ## outline -/

/-- `struct outline`. -/
structure outline where
  s : shape

namespace outline

/-- `outline::name()`. -/
def name (_ : outline) : String := "outline"

/-- `outline::compute_shape`. -/
def compute_shape (op : outline) (inputs : List shape) : Except failure shape := do
  let _ ← (check_shapes.mk inputs op.name).has 0
  pure op.s

end outline

/-! ## Theorems -/

/-! ### Integer conversions -/

/-- A non-negative `int64_t` keeps its value when converted to `std::size_t`. -/
theorem to_size_t_of_nonneg (d : Int) (h0 : 0 ≤ d) (h1 : d < 2 ^ 63) :
    to_size_t d = d.toNat := by
  unfold to_size_t
  rw [Int.emod_eq_of_lt h0 (by omega)]

/-! ### convolution, default padding mode -/

/-- Without wrap-around the default-mode spatial length is the textbook one. -/
theorem default_len_eq (inp k d p s : Nat) (hk : 0 < k) (hk2 : k < 2 ^ 64) (hs2 : s < 2 ^ 64)
    (hfit : 1 + d * (k - 1) ≤ inp + 2 * p) (hb : inp + 2 * p < 2 ^ 63) :
    convolution.default_len inp k d p s = (inp + 2 * p - (1 + d * (k - 1))) / s + 1 := by
  unfold convolution.default_len
  have h1 : u64.sub k 1 = k - 1 := by
    unfold u64.sub u64.modulus; omega
  have h2 : u64.mul d (u64.sub k 1) = d * (k - 1) := by
    rw [h1]; unfold u64.mul u64.modulus; apply Nat.mod_eq_of_lt; omega
  have h3 : u64.add 1 (u64.mul d (u64.sub k 1)) = 1 + d * (k - 1) := by
    rw [h2]; unfold u64.add u64.modulus; apply Nat.mod_eq_of_lt; omega
  have h4 : u64.add (u64.sub inp (1 + d * (k - 1))) (u64.mul 2 p) =
      inp + 2 * p - (1 + d * (k - 1)) := by
    unfold u64.add u64.sub u64.mul u64.modulus
    generalize d * (k - 1) = e at *
    omega
  rw [h3, h4]
  generalize hv : inp + 2 * p - (1 + d * (k - 1)) = v
  have hv2 : v < 2 ^ 63 := by omega
  have hq : v / s ≤ v := Nat.div_le_self v s
  have h5 : u64.div v s = v / s := by
    unfold u64.div u64.modulus
    rw [Nat.mod_eq_of_lt (by omega : v < 2 ^ 64), Nat.mod_eq_of_lt hs2]
  have h6 : u64.add (v / s) 1 = v / s + 1 := by
    unfold u64.add u64.modulus; apply Nat.mod_eq_of_lt; omega
  rw [h5, h6]
  unfold to_ptrdiff_t to_size_t u64.modulus
  rw [Nat.mod_eq_of_lt (by omega : v / s + 1 < 2 ^ 64)]
  rw [if_pos (by omega)]
  have : max (1 : Int) ((v / s + 1 : Nat) : Int) = ((v / s + 1 : Nat) : Int) := by
    apply max_eq_right; omega
  rw [this]
  omega

/-- On two shapes of rank 4 with the same element type the validator chain of
`convolution::compute_shape` passes, and the result is decided by the padding
mode alone. -/
theorem convolution_checks_pass (fp : fp_model) (op : convolution) (x w : shape)
    (ht : x.type = w.type) (hx : x.lens.length = 4) (hw : w.lens.length = 4) :
    convolution.compute_shape fp op [x, w] =
      (if op.padding_mode = padding_mode_t.default_ then
        pure (shape.standard x.type
          [index x.lens 0, index w.lens 0,
            convolution.default_len (index x.lens 2) (index w.lens 2) op.dilation.1 op.padding.1
              op.stride.1,
            convolution.default_len (index x.lens 3) (index w.lens 3) op.dilation.2 op.padding.2
              op.stride.2])
      else if op.padding_mode = padding_mode_t.same then
        pure (shape.standard x.type
          [index x.lens 0, index w.lens 0,
            fp.ceil_div_double (index x.lens 2) op.stride.1,
            fp.ceil_div_double (index x.lens 3) op.stride.2])
      else if op.padding_mode = padding_mode_t.valid then
        pure (shape.standard x.type
          [index x.lens 0, index w.lens 0,
            fp.ceil_div_double (u64.add (u64.sub (index x.lens 2) (index w.lens 2)) 1)
              op.stride.1,
            fp.ceil_div_double (u64.add (u64.sub (index x.lens 3) (index w.lens 3)) 1)
              op.stride.2])
      else
        MIGRAPH_THROW 169 "Invalid padding mode") := by
  simp [convolution.compute_shape, check_shapes.has, check_shapes.same_type,
    check_shapes.same_ndims, check_shapes.only_dims, check_shapes.same, check_shapes.all_of,
    vector_at, hx, hw, ht, bind, Except.bind]

/-- An entry of a list of positive `std::size_t` values that is read inside the
list is positive and below `2 ^ 64`. -/
theorem index_pos_of_valid (v : List Nat) (i : Nat) (hi : i < v.length)
    (hv : ∀ l ∈ v, 0 < l ∧ l < u64.modulus) : 0 < index v i ∧ index v i < 2 ^ 64 := by
  have hmem : index v i ∈ v := by
    unfold index
    rw [List.getD_eq_getElem v 0 hi]
    exact List.getElem_mem hi
  exact hv _ hmem

/-- C1 (amended): in the default padding mode, for rank-4 inputs `x`, `w` of the
same element type (the lengths of `w` positive `std::size_t` values), strides
`s ≥ 1`, and padding and dilation such that on both spatial axes
`1 + d * (k - 1) ≤ in + 2 * p` and the padded extent `in + 2 * p` is below
`2 ^ 63`, `convolution::compute_shape` returns the standard shape of `x`'s type
with lens `[x.lens[0], w.lens[0], (in₀ + 2 p₀ - (1 + d₀ (k₀ - 1))) / s₀ + 1,
(in₁ + 2 p₁ - (1 + d₁ (k₁ - 1))) / s₁ + 1]`. -/
theorem convolution_default_shape (fp : fp_model) (op : convolution) (x w : shape)
    (hmode : op.padding_mode = padding_mode_t.default_)
    (ht : x.type = w.type) (hx : x.rank = 4) (hw : w.rank = 4)
    (hwv : ∀ l ∈ w.lens, 0 < l ∧ l < u64.modulus)
    (hs0 : 1 ≤ op.stride.1 ∧ op.stride.1 < u64.modulus)
    (hs1 : 1 ≤ op.stride.2 ∧ op.stride.2 < u64.modulus)
    (hfit0 : 1 + op.dilation.1 * (index w.lens 2 - 1) ≤ index x.lens 2 + 2 * op.padding.1)
    (hfit1 : 1 + op.dilation.2 * (index w.lens 3 - 1) ≤ index x.lens 3 + 2 * op.padding.2)
    (hb0 : index x.lens 2 + 2 * op.padding.1 < 2 ^ 63)
    (hb1 : index x.lens 3 + 2 * op.padding.2 < 2 ^ 63) :
    convolution.compute_shape fp op [x, w] =
      Except.ok (shape.standard x.type
        [index x.lens 0, index w.lens 0,
          (index x.lens 2 + 2 * op.padding.1 - (1 + op.dilation.1 * (index w.lens 2 - 1))) /
            op.stride.1 + 1,
          (index x.lens 3 + 2 * op.padding.2 - (1 + op.dilation.2 * (index w.lens 3 - 1))) /
            op.stride.2 + 1]) := by
  have hk0 := index_pos_of_valid w.lens 2 (by unfold shape.rank at hw; omega) hwv
  have hk1 := index_pos_of_valid w.lens 3 (by unfold shape.rank at hw; omega) hwv
  rw [convolution_checks_pass fp op x w ht hx hw, if_pos hmode,
    default_len_eq _ _ _ _ _ hk0.1 hk0.2 hs0.2 hfit0 hb0,
    default_len_eq _ _ _ _ _ hk1.1 hk1.2 hs1.2 hfit1 hb1]
  rfl

/-- C1, instances: spatial size 4 and kernel 3 with stride 1 and dilation 1 give
spatial size 2 for padding 0 and 4 for padding 1, and `[1,3,32,32]` convolved
with `[8,3,3,3]` at padding, stride and dilation `{1,1}` gives `[1,8,32,32]`. -/
theorem convolution_default_shape_witness :
    convolution.compute_shape fp_ieee ⟨(0, 0), (1, 1), (1, 1), padding_mode_t.default_⟩
        [shape.standard type_t.float_type [1, 1, 4, 4],
          shape.standard type_t.float_type [1, 1, 3, 3]] =
      Except.ok (shape.standard type_t.float_type [1, 1, 2, 2]) ∧
    convolution.compute_shape fp_ieee ⟨(1, 1), (1, 1), (1, 1), padding_mode_t.default_⟩
        [shape.standard type_t.float_type [1, 1, 4, 4],
          shape.standard type_t.float_type [1, 1, 3, 3]] =
      Except.ok (shape.standard type_t.float_type [1, 1, 4, 4]) ∧
    convolution.compute_shape fp_ieee ⟨(1, 1), (1, 1), (1, 1), padding_mode_t.default_⟩
        [shape.standard type_t.float_type [1, 3, 32, 32],
          shape.standard type_t.float_type [8, 3, 3, 3]] =
      Except.ok (shape.standard type_t.float_type [1, 8, 32, 32]) :=
  ⟨convolution_default_shape fp_ieee ⟨(0, 0), (1, 1), (1, 1), padding_mode_t.default_⟩
      (shape.standard type_t.float_type [1, 1, 4, 4])
      (shape.standard type_t.float_type [1, 1, 3, 3])
      rfl rfl rfl rfl (by decide) (by decide) (by decide) (by decide) (by decide)
      (by decide) (by decide),
    convolution_default_shape fp_ieee ⟨(1, 1), (1, 1), (1, 1), padding_mode_t.default_⟩
      (shape.standard type_t.float_type [1, 1, 4, 4])
      (shape.standard type_t.float_type [1, 1, 3, 3])
      rfl rfl rfl rfl (by decide) (by decide) (by decide) (by decide) (by decide)
      (by decide) (by decide),
    convolution_default_shape fp_ieee ⟨(1, 1), (1, 1), (1, 1), padding_mode_t.default_⟩
      (shape.standard type_t.float_type [1, 3, 32, 32])
      (shape.standard type_t.float_type [8, 3, 3, 3])
      rfl rfl rfl rfl (by decide) (by decide) (by decide) (by decide) (by decide)
      (by decide) (by decide)⟩

/-- C1 as stated fails when `2 * padding` wraps around: with padding `2 ^ 63` on
the first spatial axis, input `[1,1,4,4]`, kernel `[1,1,3,3]`, stride 1 and
dilation 1, the kernel fits (`3 ≤ 4 + 2 * 2 ^ 63`) and the formula gives
`(4 + 2 * 2 ^ 63 - 3) / 1 + 1 = 2 ^ 64 + 2`, but `compute_shape` returns
`[1,1,2,2]`. -/
theorem convolution_default_shape_counterexample :
    1 + 1 * (3 - 1) ≤ 4 + 2 * 2 ^ 63 ∧
    (4 + 2 * 2 ^ 63 - (1 + 1 * (3 - 1))) / 1 + 1 = 2 ^ 64 + 2 ∧
    convolution.compute_shape fp_ieee
        ⟨(2 ^ 63, 0), (1, 1), (1, 1), padding_mode_t.default_⟩
        [shape.standard type_t.float_type [1, 1, 4, 4],
          shape.standard type_t.float_type [1, 1, 3, 3]] =
      Except.ok (shape.standard type_t.float_type [1, 1, 2, 2]) ∧
    convolution.compute_shape fp_ieee
        ⟨(2 ^ 63, 0), (1, 1), (1, 1), padding_mode_t.default_⟩
        [shape.standard type_t.float_type [1, 1, 4, 4],
          shape.standard type_t.float_type [1, 1, 3, 3]] ≠
      Except.ok (shape.standard type_t.float_type
        [1, 1, (4 + 2 * 2 ^ 63 - (1 + 1 * (3 - 1))) / 1 + 1, (4 + 2 * 0 - (1 + 1 * (3 - 1))) / 1 + 1]) := by
  refine ⟨by decide, by decide, by rfl, ?_⟩
  intro h
  have h2 := congrArg (fun r => match r with
    | Except.ok s => index s.lens 2
    | Except.error _ => 0) h
  revert h2
  decide

/-- C2 (the clamp of the default mode misses): a `1 × 1` input, a `4 × 4` kernel,
stride 2, no padding and dilation 1.  The dilated kernel extent `4` exceeds the
padded input extent `1`, yet the spatial lengths come out as `2 ^ 63 - 1`
instead of `1`: the difference wraps to `2 ^ 64 - 3` in `std::size_t`, is halved
as an unsigned number, and is positive when `std::max<std::ptrdiff_t>` sees
it. -/
theorem convolution_default_clamp_missed :
    1 + 2 * 0 < 1 + 1 * (4 - 1) ∧
    convolution.default_len 1 4 1 0 2 = 2 ^ 63 - 1 ∧
    convolution.compute_shape fp_ieee ⟨(0, 0), (2, 2), (1, 1), padding_mode_t.default_⟩
        [shape.standard type_t.float_type [1, 1, 1, 1],
          shape.standard type_t.float_type [1, 1, 4, 4]] =
      Except.ok (shape.standard type_t.float_type
        [1, 1, 9223372036854775807, 9223372036854775807]) := by
  refine ⟨by decide, by decide, by rfl⟩

/-! ### Floating-point rounding -/

theorem round_half_even_intCast (n : ℤ) : round_half_even (n : ℚ) = n := by
  unfold round_half_even
  simp

theorem round_half_even_le (m : ℚ) (n : ℤ) (h : m ≤ n) : round_half_even m ≤ n := by
  have hf : ⌊m⌋ ≤ n := by
    have := Int.floor_le m
    exact_mod_cast (Int.cast_le (R := ℚ)).1 (le_trans this h)
  rcases eq_or_lt_of_le hf with heq | hlt
  · -- floor m = n, so m = n
    have hm : m = n := le_antisymm h (by rw [← heq]; exact Int.floor_le m)
    rw [hm, round_half_even_intCast]
  · unfold round_half_even
    split_ifs <;> omega

theorem round_half_even_ge (m : ℚ) (n : ℤ) (h : (n : ℚ) ≤ m) : n ≤ round_half_even m := by
  have hf : n ≤ ⌊m⌋ := Int.le_floor.2 h
  unfold round_half_even
  split_ifs <;> omega

theorem round_half_even_gt (m : ℚ) (n : ℤ) (h : (n : ℚ) + 1 / 2 < m) :
    n < round_half_even m := by
  have hf : n ≤ ⌊m⌋ := Int.le_floor.2 (by linarith)
  rcases eq_or_lt_of_le hf with heq | hlt
  · have h1 : ¬ (m - ⌊m⌋ < 1 / 2) := by
      rw [← heq]; linarith
    have h2 : 1 / 2 < m - ⌊m⌋ := by
      rw [← heq]; linarith
    unfold round_half_even
    rw [if_neg h1, if_pos h2]
    omega
  · unfold round_half_even
    split_ifs <;> omega

/-- The unit in the last place used by `fp_round` is positive. -/
theorem fp_ulp_pos (prec : Nat) (x : ℚ) :
    (0 : ℚ) < (2 : ℚ) ^ (Int.log 2 x - ((prec : Int) - 1)) :=
  zpow_pos (by norm_num) _

/-- A positive value is rounded to at least the power of two below it. -/
theorem fp_round_ge (prec : Nat) (hprec : 1 ≤ prec) (x : ℚ) (hx : 0 < x) :
    (2 : ℚ) ^ Int.log 2 x ≤ fp_round prec x := by
  have hu := fp_ulp_pos prec x
  have hlow : ((2 : ℕ) : ℚ) ^ Int.log 2 x ≤ x := Int.zpow_log_le_self (by norm_num) hx
  simp only [Nat.cast_ofNat] at hlow
  unfold fp_round
  rw [if_neg (not_le.2 hx)]
  have hsplit : (2 : ℚ) ^ Int.log 2 x =
      ((2 ^ (prec - 1) : ℕ) : ℚ) * (2 : ℚ) ^ (Int.log 2 x - ((prec : Int) - 1)) := by
    rw [Nat.cast_pow, Nat.cast_ofNat, ← zpow_natCast, ← zpow_add₀ (by norm_num : (2 : ℚ) ≠ 0)]
    congr 1
    have : ((prec - 1 : ℕ) : ℤ) = (prec : ℤ) - 1 := by omega
    rw [this]; ring
  have hm : (((2 ^ (prec - 1) : ℕ) : ℤ) : ℚ) ≤
      x / (2 : ℚ) ^ (Int.log 2 x - ((prec : Int) - 1)) := by
    rw [le_div_iff₀ hu]
    have : (((2 ^ (prec - 1) : ℕ) : ℤ) : ℚ) = ((2 ^ (prec - 1) : ℕ) : ℚ) := by norm_cast
    rw [this, ← hsplit]
    exact hlow
  have hr := round_half_even_ge _ _ hm
  have hr2 : (((2 ^ (prec - 1) : ℕ) : ℤ) : ℚ) ≤
      (round_half_even (x / (2 : ℚ) ^ (Int.log 2 x - ((prec : Int) - 1))) : ℚ) := by
    exact_mod_cast hr
  calc (2 : ℚ) ^ Int.log 2 x
      = ((2 ^ (prec - 1) : ℕ) : ℚ) * (2 : ℚ) ^ (Int.log 2 x - ((prec : Int) - 1)) := hsplit
    _ ≤ _ := by
        apply mul_le_mul_of_nonneg_right _ (le_of_lt hu)
        exact_mod_cast hr

/-- A positive value is rounded to at most the power of two above it. -/
theorem fp_round_le (prec : Nat) (x : ℚ) (hx : 0 < x) :
    fp_round prec x ≤ (2 : ℚ) ^ (Int.log 2 x + 1) := by
  have hu := fp_ulp_pos prec x
  have hhigh : x < ((2 : ℕ) : ℚ) ^ (Int.log 2 x + 1) :=
    Int.lt_zpow_succ_log_self (by norm_num) x
  simp only [Nat.cast_ofNat] at hhigh
  unfold fp_round
  rw [if_neg (not_le.2 hx)]
  have hsplit : (2 : ℚ) ^ (Int.log 2 x + 1) =
      ((2 ^ prec : ℕ) : ℚ) * (2 : ℚ) ^ (Int.log 2 x - ((prec : Int) - 1)) := by
    rw [Nat.cast_pow, Nat.cast_ofNat, ← zpow_natCast, ← zpow_add₀ (by norm_num : (2 : ℚ) ≠ 0)]
    congr 1
    ring
  have hm : x / (2 : ℚ) ^ (Int.log 2 x - ((prec : Int) - 1)) ≤
      (((2 ^ prec : ℕ) : ℤ) : ℚ) := by
    rw [div_le_iff₀ hu]
    have : (((2 ^ prec : ℕ) : ℤ) : ℚ) = ((2 ^ prec : ℕ) : ℚ) := by norm_cast
    rw [this, ← hsplit]
    exact le_of_lt hhigh
  have hr := round_half_even_le _ _ hm
  rw [hsplit]
  apply mul_le_mul_of_nonneg_right _ (le_of_lt hu)
  exact_mod_cast hr

/-- A number with a significand of at most `prec` bits is not changed by
rounding. -/
theorem fp_round_representable (prec : Nat) (M : Nat) (j : Int) (hM : M < 2 ^ prec) :
    fp_round prec ((M : ℚ) * (2 : ℚ) ^ j) = (M : ℚ) * (2 : ℚ) ^ j := by
  rcases Nat.eq_zero_or_pos M with h0 | hpos
  · subst h0
    simp [fp_round]
  have h2j : (0 : ℚ) < (2 : ℚ) ^ j := zpow_pos (by norm_num) _
  have hx : (0 : ℚ) < (M : ℚ) * (2 : ℚ) ^ j := mul_pos (by exact_mod_cast hpos) h2j
  generalize hxdef : (M : ℚ) * (2 : ℚ) ^ j = x at hx
  have hu := fp_ulp_pos prec x
  have hlt : x < ((2 : ℕ) : ℚ) ^ (j + prec) := by
    rw [← hxdef, Nat.cast_ofNat, zpow_add₀ (by norm_num : (2 : ℚ) ≠ 0), mul_comm ((2 : ℚ) ^ j)]
    apply mul_lt_mul_of_pos_right _ h2j
    rw [zpow_natCast]
    exact_mod_cast hM
  have he : Int.log 2 x < j + prec := (Int.lt_zpow_iff_log_lt (by norm_num) hx).1 hlt
  obtain ⟨t, ht⟩ : ∃ t : ℕ, (t : ℤ) = j - Int.log 2 x + prec - 1 :=
    ⟨(j - Int.log 2 x + prec - 1).toNat, by omega⟩
  have hm : x / (2 : ℚ) ^ (Int.log 2 x - ((prec : Int) - 1)) = (((M * 2 ^ t : ℕ) : ℤ) : ℚ) := by
    rw [div_eq_iff (ne_of_gt hu)]
    calc x = (M : ℚ) * (2 : ℚ) ^ j := hxdef.symm
      _ = (M : ℚ) * ((2 : ℚ) ^ (t : ℤ) * (2 : ℚ) ^ (Int.log 2 x - ((prec : Int) - 1))) := by
          rw [← zpow_add₀ (by norm_num : (2 : ℚ) ≠ 0)]
          congr 2
          omega
      _ = (((M * 2 ^ t : ℕ) : ℤ) : ℚ) * (2 : ℚ) ^ (Int.log 2 x - ((prec : Int) - 1)) := by
          push_cast
          rw [zpow_natCast]
          ring
  unfold fp_round
  rw [if_neg (not_le.2 hx), hm, round_half_even_intCast, ← hm]
  exact div_mul_cancel₀ _ (ne_of_gt hu)

/-- A natural number up to `2 ^ 24` is a single-precision number. -/
theorem fp_round_natCast (n : Nat) (h : n ≤ 2 ^ 24) : fp_round 24 (n : ℚ) = n := by
  rcases Nat.lt_or_ge n (2 ^ 24) with hlt | hge
  · have := fp_round_representable 24 n 0 hlt
    simpa using this
  · have hn : n = 2 ^ 24 := le_antisymm h hge
    have := fp_round_representable 24 1 24 (by norm_num)
    rw [hn]
    norm_num at this ⊢
    exact this

/-- Single-precision division of an integer below `2 ^ 24` by a positive integer,
followed by `std::ceil`, gives the ceiling of the exact quotient. -/
theorem ceil_fp_round_div (a s : Nat) (hs : 1 ≤ s) (ha : a < 2 ^ 24) :
    ⌈fp_round 24 ((a : ℚ) / s)⌉ = ⌈(a : ℚ) / s⌉ := by
  rcases Nat.eq_zero_or_pos a with h0 | hapos
  · subst h0; simp [fp_round]
  have hsq : (0 : ℚ) < (s : ℚ) := by exact_mod_cast hs
  have haq : (0 : ℚ) < (a : ℚ) := by exact_mod_cast hapos
  have hx : (0 : ℚ) < (a : ℚ) / s := div_pos haq hsq
  have hxa : (a : ℚ) / s ≤ a := div_le_self (le_of_lt haq) (by exact_mod_cast hs)
  generalize hxdef : (a : ℚ) / s = x at hx hxa
  have hsx : (s : ℚ) * x = a := by rw [← hxdef]; field_simp
  have hu := fp_ulp_pos 24 x
  have hlow : ((2 : ℕ) : ℚ) ^ Int.log 2 x ≤ x := Int.zpow_log_le_self (by norm_num) hx
  simp only [Nat.cast_ofNat] at hlow
  have hlt : x < ((2 : ℕ) : ℚ) ^ ((24 : ℕ) : ℤ) := by
    rw [zpow_natCast]
    calc x ≤ (a : ℚ) := hxa
      _ < ((2 : ℕ) : ℚ) ^ 24 := by exact_mod_cast ha
  have he : Int.log 2 x < 24 := by
    have := (Int.lt_zpow_iff_log_lt (by norm_num) hx).1 hlt
    simpa using this
  obtain ⟨t, ht⟩ : ∃ t : ℕ, (t : ℤ) = 23 - Int.log 2 x := ⟨(23 - Int.log 2 x).toNat, by omega⟩
  generalize hudef : (2 : ℚ) ^ (Int.log 2 x - (((24 : ℕ) : Int) - 1)) = u at hu
  have huU : u * (2 : ℚ) ^ t = 1 := by
    rw [← hudef, ← zpow_natCast, ← zpow_add₀ (by norm_num : (2 : ℚ) ≠ 0), ht]
    simp
  have hU : (0 : ℚ) < (2 : ℚ) ^ t := pow_pos (by norm_num) _
  have hdiv : ∀ y : ℚ, y / u = y * (2 : ℚ) ^ t := by
    intro y
    rw [div_eq_iff (ne_of_gt hu), mul_assoc, mul_comm ((2 : ℚ) ^ t), huU, mul_one]
  -- the power of two below `x`, in terms of `t`
  have h2e : (2 : ℚ) ^ Int.log 2 x * (2 : ℚ) ^ t = 2 ^ 23 := by
    rw [← zpow_natCast, ← zpow_add₀ (by norm_num : (2 : ℚ) ≠ 0), ht]
    norm_num
  -- `s < 2 * 2 ^ t`
  have hs2t : (s : ℚ) < 2 * (2 : ℚ) ^ t := by
    have h1 : (s : ℚ) * (2 : ℚ) ^ Int.log 2 x ≤ a := by
      rw [← hsx]; exact mul_le_mul_of_nonneg_left hlow (le_of_lt hsq)
    have h2 : (a : ℚ) < 2 ^ 24 := by exact_mod_cast ha
    have h3 : (s : ℚ) * 2 ^ 23 < 2 ^ 24 * (2 : ℚ) ^ t := by
      calc (s : ℚ) * 2 ^ 23 = (s : ℚ) * (2 : ℚ) ^ Int.log 2 x * (2 : ℚ) ^ t := by
            rw [mul_assoc, h2e]
        _ ≤ (a : ℚ) * (2 : ℚ) ^ t := mul_le_mul_of_nonneg_right h1 (le_of_lt hU)
        _ < 2 ^ 24 * (2 : ℚ) ^ t := mul_lt_mul_of_pos_right h2 hU
    have h4 : (2 : ℚ) ^ 24 = 2 * 2 ^ 23 := by norm_num
    rw [h4] at h3
    nlinarith
  -- the integer just above `x`
  have hn1 : ((⌈x⌉ : ℤ) : ℚ) - 1 < x := by
    have := Int.ceil_lt_add_one x
    linarith
  have hn2 : x ≤ ((⌈x⌉ : ℤ) : ℚ) := Int.le_ceil x
  -- `x` exceeds `⌈x⌉ - 1` by at least `1 / s`
  have hgap : ((⌈x⌉ : ℤ) : ℚ) - 1 + 1 / s ≤ x := by
    have h1 : ((⌈x⌉ - 1 : ℤ) : ℚ) * s < a := by
      rw [← hsx]; push_cast; nlinarith
    have h2 : (⌈x⌉ - 1) * (s : ℤ) < (a : ℤ) := by exact_mod_cast h1
    have h3 : (⌈x⌉ - 1) * (s : ℤ) + 1 ≤ (a : ℤ) := by omega
    have h4 : ((⌈x⌉ : ℤ) : ℚ) * s - s + 1 ≤ a := by
      have : (((⌈x⌉ - 1) * (s : ℤ) + 1 : ℤ) : ℚ) ≤ ((a : ℤ) : ℚ) := by exact_mod_cast h3
      push_cast at this
      linarith
    rw [← hxdef, le_div_iff₀ hsq]
    have : (((⌈x⌉ : ℤ) : ℚ) - 1 + 1 / s) * s = ((⌈x⌉ : ℤ) : ℚ) * s - s + 1 := by
      field_simp
      ring
    rw [hxdef, this]
    exact h4
  have hfp : fp_round 24 x = (round_half_even (x * (2 : ℚ) ^ t) : ℚ) * u := by
    unfold fp_round
    rw [if_neg (not_le.2 hx), hudef, hdiv]
  rw [Int.ceil_eq_iff, hfp]
  constructor
  · -- lower bound
    have hm : (((⌈x⌉ - 1) * 2 ^ t : ℤ) : ℚ) + 1 / 2 < x * (2 : ℚ) ^ t := by
      push_cast
      have h1 : (1 : ℚ) / 2 < 1 / s * (2 : ℚ) ^ t := by
        rw [one_div_mul_eq_div, lt_div_iff₀ hsq]
        linarith
      nlinarith
    have hr := round_half_even_gt _ _ hm
    have hr2 : (((⌈x⌉ - 1) * 2 ^ t + 1 : ℤ) : ℚ) ≤ (round_half_even (x * (2 : ℚ) ^ t) : ℚ) := by
      exact_mod_cast hr
    push_cast at hr2
    have : (((⌈x⌉ : ℤ) : ℚ) - 1) * 2 ^ t * u + u ≤
        (round_half_even (x * (2 : ℚ) ^ t) : ℚ) * u := by
      have := mul_le_mul_of_nonneg_right hr2 (le_of_lt hu)
      linarith
    have h5 : (((⌈x⌉ : ℤ) : ℚ) - 1) * 2 ^ t * u = ((⌈x⌉ : ℤ) : ℚ) - 1 := by
      rw [mul_assoc, mul_comm ((2 : ℚ) ^ t), huU, mul_one]
    linarith
  · -- upper bound
    have hm : x * (2 : ℚ) ^ t ≤ ((⌈x⌉ * 2 ^ t : ℤ) : ℚ) := by
      push_cast
      exact mul_le_mul_of_nonneg_right hn2 (le_of_lt hU)
    have hr := round_half_even_le _ _ hm
    have hr2 : (round_half_even (x * (2 : ℚ) ^ t) : ℚ) ≤ ((⌈x⌉ * 2 ^ t : ℤ) : ℚ) := by
      exact_mod_cast hr
    push_cast at hr2
    have := mul_le_mul_of_nonneg_right hr2 (le_of_lt hu)
    have h5 : ((⌈x⌉ : ℤ) : ℚ) * 2 ^ t * u = ((⌈x⌉ : ℤ) : ℚ) := by
      rw [mul_assoc, mul_comm ((2 : ℚ) ^ t), huU, mul_one]
    linarith

/-- A value strictly between 0 and 1 is rounded into `(0, 1]`, so that
`std::ceil` of the rounded value is 1. -/
theorem ceil_fp_round_of_lt_one (x : ℚ) (h0 : 0 < x) (h1 : x < 1) : ⌈fp_round 24 x⌉ = 1 := by
  have hge := fp_round_ge 24 (by norm_num) x h0
  have hle := fp_round_le 24 x h0
  have hpos : (0 : ℚ) < (2 : ℚ) ^ Int.log 2 x := zpow_pos (by norm_num) _
  have hlog : Int.log 2 x < 0 := by
    apply (Int.lt_zpow_iff_log_lt (by norm_num) h0).1
    simpa using h1
  have hone : (2 : ℚ) ^ (Int.log 2 x + 1) ≤ 1 :=
    zpow_le_one_of_nonpos₀ (by norm_num) (by omega)
  rw [Int.ceil_eq_iff]
  constructor
  · simp only [Int.cast_one, sub_self]
    linarith
  · simp only [Int.cast_one]
    linarith

/-- Below `2 ^ 24` the single-precision expression
`std::ceil(a / static_cast<float>(s)) + 1` of `pooling::compute_shape` has the
exact value `⌈a / s⌉ + 1`. -/
theorem ceil_div_float_succ_exact (a s : Nat) (hs : 1 ≤ s) (ha : a < 2 ^ 24) :
    fp_ieee.ceil_div_float_succ a s = ⌈(a : ℚ) / s⌉ + 1 := by
  have hfa : fp_round 24 (a : ℚ) = a := fp_round_natCast a (le_of_lt ha)
  have hsq : (0 : ℚ) < (s : ℚ) := by exact_mod_cast hs
  have hc0 : 0 ≤ ⌈(a : ℚ) / s⌉ := Int.ceil_nonneg (div_nonneg (Nat.cast_nonneg a) (le_of_lt hsq))
  have hca : ⌈(a : ℚ) / s⌉ ≤ (a : ℤ) := by
    rw [Int.ceil_le]
    push_cast
    exact div_le_self (Nat.cast_nonneg a) (by exact_mod_cast hs)
  have hq : ⌈fp_round 24 (fp_round 24 (a : ℚ) / fp_round 24 (s : ℚ))⌉ = ⌈(a : ℚ) / s⌉ := by
    rw [hfa]
    rcases Nat.lt_or_ge s (2 ^ 24) with hlt | hge
    · rw [fp_round_natCast s (le_of_lt hlt)]
      exact ceil_fp_round_div a s hs ha
    · rcases Nat.eq_zero_or_pos a with h0 | hapos
      · subst h0; simp [fp_round]
      have haq : (0 : ℚ) < (a : ℚ) := by exact_mod_cast hapos
      have has : (a : ℚ) < (s : ℚ) := by exact_mod_cast lt_of_lt_of_le ha hge
      have hfs : (2 : ℚ) ^ 24 ≤ fp_round 24 (s : ℚ) := by
        have h1 := fp_round_ge 24 (by norm_num) (s : ℚ) hsq
        have h2 : (24 : ℤ) ≤ Int.log 2 (s : ℚ) := by
          apply (Int.zpow_le_iff_le_log (by norm_num) hsq).1
          have : ((2 ^ 24 : ℕ) : ℚ) ≤ (s : ℚ) := by exact_mod_cast hge
          rw [Nat.cast_ofNat]
          calc (2 : ℚ) ^ (24 : ℤ) = ((2 ^ 24 : ℕ) : ℚ) := by norm_num
            _ ≤ (s : ℚ) := this
        have h3 : (2 : ℚ) ^ (24 : ℤ) ≤ (2 : ℚ) ^ Int.log 2 (s : ℚ) :=
          zpow_le_zpow_right₀ (by norm_num) h2
        have h4 : (2 : ℚ) ^ (24 : ℤ) = 2 ^ 24 := by norm_num
        linarith
      have ha24 : (a : ℚ) < 2 ^ 24 := by exact_mod_cast ha
      have hfspos : (0 : ℚ) < fp_round 24 (s : ℚ) := by linarith [pow_pos (by norm_num : (0 : ℚ) < 2) 24]
      have hx0 : 0 < (a : ℚ) / fp_round 24 (s : ℚ) := div_pos haq hfspos
      have hx1 : (a : ℚ) / fp_round 24 (s : ℚ) < 1 := by
        rw [div_lt_one hfspos]; linarith
      rw [ceil_fp_round_of_lt_one _ hx0 hx1, eq_comm, Int.ceil_eq_iff]
      constructor
      · simp only [Int.cast_one, sub_self]
        exact div_pos haq hsq
      · simp only [Int.cast_one]
        rw [div_le_one hsq]
        exact le_of_lt has
  show ⌊fp_round 24 ((⌈fp_round 24 (fp_round 24 (a : ℚ) / fp_round 24 (s : ℚ))⌉ : ℚ) + 1)⌋ = _
  rw [hq]
  obtain ⟨c, hc⟩ : ∃ c : ℕ, (c : ℤ) = ⌈(a : ℚ) / s⌉ := ⟨⌈(a : ℚ) / s⌉.toNat, by omega⟩
  have hc24 : c + 1 ≤ 2 ^ 24 := by omega
  have hcast : ((⌈(a : ℚ) / s⌉ : ℤ) : ℚ) + 1 = ((c + 1 : ℕ) : ℚ) := by
    rw [← hc]; push_cast; rfl
  rw [hcast, fp_round_natCast _ hc24, ← hc]
  have : ((c + 1 : ℕ) : ℚ) = (((c : ℤ) + 1 : ℤ) : ℚ) := by push_cast; rfl
  rw [this, Int.floor_intCast]

/-- A tie is rounded to the even neighbour: `2 ^ 24 + 1` becomes `2 ^ 24` in
single precision. -/
theorem fp_round_tie : fp_round 24 (16777217 : ℚ) = 16777216 := by
  have hlog : Int.log 2 (16777217 : ℚ) = 24 := by
    have h1 : Int.log 2 ((16777217 : ℕ) : ℚ) = Nat.log 2 16777217 := Int.log_natCast 2 16777217
    have h2 : Nat.log 2 16777217 = 24 := by
      rw [Nat.log_eq_iff (by norm_num)]
      norm_num
    rw [h2] at h1
    exact_mod_cast h1
  have hfloor : ⌊(16777217 : ℚ) / 2⌋ = 8388608 := by
    rw [Int.floor_eq_iff]
    norm_num
  unfold fp_round
  rw [if_neg (by norm_num), hlog]
  have hu : (2 : ℚ) ^ ((24 : ℤ) - (((24 : ℕ) : ℤ) - 1)) = 2 := by norm_num
  rw [hu]
  unfold round_half_even
  rw [hfloor]
  norm_num

/-- The single-precision expression of `pooling::compute_shape` at `2 ^ 24 + 1`
and stride 1: both the conversion of the numerator and the final addition of 1
round down. -/
theorem ceil_div_float_succ_tie : fp_ieee.ceil_div_float_succ 16777217 1 = 16777216 := by
  show ⌊fp_round 24 ((⌈fp_round 24 (fp_round 24 ((16777217 : ℕ) : ℚ) /
    fp_round 24 ((1 : ℕ) : ℚ))⌉ : ℚ) + 1)⌋ = 16777216
  have h1 : fp_round 24 ((1 : ℕ) : ℚ) = 1 := by
    have := fp_round_natCast 1 (by norm_num)
    simpa using this
  have h2 : fp_round 24 ((16777217 : ℕ) : ℚ) = 16777216 := by
    have := fp_round_tie
    simpa using this
  have h3 : fp_round 24 (16777216 : ℚ) = 16777216 := by
    have := fp_round_natCast 16777216 (by norm_num)
    simpa using this
  rw [h1, h2, div_one, h3]
  have h4 : ((⌈(16777216 : ℚ)⌉ : ℤ) : ℚ) + 1 = 16777217 := by
    have : ⌈(16777216 : ℚ)⌉ = 16777216 := by
      rw [Int.ceil_eq_iff]; norm_num
    rw [this]; norm_num
  rw [h4, fp_round_tie]
  rw [Int.floor_eq_iff]
  norm_num

/-! ### pooling -/

/-- On a single input of rank 4 the validators of `pooling::compute_shape` pass;
what is left are the two `assert`s and the construction of the result. -/
theorem pooling_compute_shape_single (ndebug : Bool) (fp : fp_model) (op : pooling) (x : shape)
    (hx : x.lens.length = 4) :
    pooling.compute_shape ndebug fp op [x] =
      (c_assert ndebug "lengths[0] < (input.lens()[2] + 2 * padding[0])"
          (decide (op.lengths.1 < u64.add (index x.lens 2) (u64.mul 2 op.padding.1)))).bind
        (fun _ =>
          (c_assert ndebug "lengths[1] < (input.lens()[3] + 2 * padding[1])"
              (decide (op.lengths.2 < u64.add (index x.lens 3) (u64.mul 2 op.padding.2)))).bind
            (fun _ => Except.ok (shape.standard x.type
              [index x.lens 0, index x.lens 1,
                pooling.spatial_len fp (index x.lens 2) op.padding.1 op.lengths.1 op.stride.1,
                pooling.spatial_len fp (index x.lens 3) op.padding.2 op.lengths.2
                  op.stride.2]))) := by
  simp [pooling.compute_shape, check_shapes.has, check_shapes.only_dims, vector_at, hx, bind,
    pure, Except.pure, Except.bind]

/-- With a number of inputs other than one `pooling::compute_shape` fails in
`has(1)`. -/
theorem pooling_compute_shape_arity (ndebug : Bool) (fp : fp_model) (op : pooling)
    (inputs : List shape) (h : inputs.length ≠ 1) :
    pooling.compute_shape ndebug fp op inputs =
      MIGRAPH_THROW 36 ("pooling: Wrong number of arguments: expected " ++ toString 1 ++
        " but given " ++ toString inputs.length) := by
  simp [pooling.compute_shape, check_shapes.has, h, bind, Except.bind, pooling.name,
    check_shapes.prefix_]
  rfl

/-- On a single input whose rank is not 4 `pooling::compute_shape` fails in
`only_dims(4)`. -/
theorem pooling_compute_shape_rank (ndebug : Bool) (fp : fp_model) (op : pooling)
    (x : shape) (h : x.rank ≠ 4) :
    pooling.compute_shape ndebug fp op [x] =
      MIGRAPH_THROW 47 ("pooling: Only " ++ toString 4 ++ "d supported") := by
  unfold shape.rank at h
  simp [pooling.compute_shape, check_shapes.has, check_shapes.only_dims, h, bind,
    Except.bind, pooling.name, check_shapes.prefix_]
  rfl

/-- The spatial length of `pooling::compute_shape` when nothing wraps around and
the numerator is below `2 ^ 24`. -/
theorem pooling_spatial_len_exact (inp p k s : Nat) (hs : 1 ≤ s) (hk : k < inp + 2 * p)
    (hw : inp + 2 * p < 2 ^ 64) (hb : inp + 2 * p - k < 2 ^ 24) :
    k < u64.add inp (u64.mul 2 p) ∧
      pooling.spatial_len fp_ieee inp p k s =
        (max 1 (⌈((inp + 2 * p - k : ℕ) : ℚ) / (s : ℚ)⌉ + 1)).toNat := by
  have hadd : u64.add inp (u64.mul 2 p) = inp + 2 * p := by
    unfold u64.add u64.mul u64.modulus; omega
  have hsub : u64.sub (inp + 2 * p) k = inp + 2 * p - k := by
    unfold u64.sub u64.modulus; omega
  refine ⟨by rw [hadd]; exact hk, ?_⟩
  unfold pooling.spatial_len
  rw [hadd, hsub, ceil_div_float_succ_exact _ s hs hb]
  have hc0 : 0 ≤ ⌈((inp + 2 * p - k : ℕ) : ℚ) / (s : ℚ)⌉ :=
    Int.ceil_nonneg (div_nonneg (Nat.cast_nonneg _) (Nat.cast_nonneg _))
  have hca : ⌈((inp + 2 * p - k : ℕ) : ℚ) / (s : ℚ)⌉ ≤ ((inp + 2 * p - k : ℕ) : ℤ) := by
    rw [Int.ceil_le]
    push_cast
    exact div_le_self (Nat.cast_nonneg _) (by exact_mod_cast hs)
  apply to_size_t_of_nonneg
  · exact le_trans (by norm_num) (le_max_left _ _)
  · apply max_lt (by norm_num)
    omega

/-- C3 (no error is raised).  On a single rank-4 input a build with `NDEBUG`
defined returns a shape for every parameter setting, the kernel length being
below the padded input extent or not; a build without `NDEBUG` is aborted by
an `assert` when the kernel length is not below the padded extent on some
spatial axis, and no `migraph::exception` is raised in either build.  At the
input `[1,1,2,2]` with kernel lengths `{2,2}`, no padding and stride 1 (kernel
length equal to the padded extent) the release build returns `[1,1,1,1]`. -/
theorem pooling_kernel_not_below_extent :
    (∀ (fp : fp_model) (op : pooling) (x : shape), x.rank = 4 →
      pooling.compute_shape true fp op [x] =
        Except.ok (shape.standard x.type
          [index x.lens 0, index x.lens 1,
            pooling.spatial_len fp (index x.lens 2) op.padding.1 op.lengths.1 op.stride.1,
            pooling.spatial_len fp (index x.lens 3) op.padding.2 op.lengths.2 op.stride.2])) ∧
    (∀ (fp : fp_model) (op : pooling) (x : shape), x.rank = 4 →
      (index x.lens 2 + 2 * op.padding.1 ≤ op.lengths.1 ∨
        index x.lens 3 + 2 * op.padding.2 ≤ op.lengths.2) →
      ∃ expr, pooling.compute_shape false fp op [x] =
        Except.error (failure.assertion expr)) ∧
    pooling.compute_shape true fp_ieee ⟨"max", (0, 0), (1, 1), (2, 2)⟩
        [shape.standard type_t.float_type [1, 1, 2, 2]] =
      Except.ok (shape.standard type_t.float_type [1, 1, 1, 1]) ∧
    pooling.compute_shape false fp_ieee ⟨"max", (0, 0), (1, 1), (2, 2)⟩
        [shape.standard type_t.float_type [1, 1, 2, 2]] =
      Except.error (failure.assertion "lengths[0] < (input.lens()[2] + 2 * padding[0])") := by
  have hrelease : ∀ (fp : fp_model) (op : pooling) (x : shape), x.rank = 4 →
      pooling.compute_shape true fp op [x] =
        Except.ok (shape.standard x.type
          [index x.lens 0, index x.lens 1,
            pooling.spatial_len fp (index x.lens 2) op.padding.1 op.lengths.1 op.stride.1,
            pooling.spatial_len fp (index x.lens 3) op.padding.2 op.lengths.2 op.stride.2]) := by
    intro fp op x hx
    rw [pooling_compute_shape_single true fp op x hx]
    simp [c_assert, Except.bind]
  refine ⟨hrelease, ?_, ?_, by rfl⟩
  · intro fp op x hx hk
    have hwrap : ∀ inp p : Nat, u64.add inp (u64.mul 2 p) ≤ inp + 2 * p := by
      intro inp p
      unfold u64.add u64.mul u64.modulus
      omega
    rw [pooling_compute_shape_single false fp op x hx]
    by_cases h0 : op.lengths.1 < u64.add (index x.lens 2) (u64.mul 2 op.padding.1)
    · have h1 : ¬ op.lengths.2 < u64.add (index x.lens 3) (u64.mul 2 op.padding.2) := by
        have := hwrap (index x.lens 2) op.padding.1
        have := hwrap (index x.lens 3) op.padding.2
        omega
      exact ⟨"lengths[1] < (input.lens()[3] + 2 * padding[1])",
        by simp [c_assert, h0, h1, Except.bind]⟩
    · exact ⟨"lengths[0] < (input.lens()[2] + 2 * padding[0])",
        by simp [c_assert, h0, Except.bind]⟩
  · rw [hrelease fp_ieee ⟨"max", (0, 0), (1, 1), (2, 2)⟩
      (shape.standard type_t.float_type [1, 1, 2, 2]) rfl]
    have h : pooling.spatial_len fp_ieee 2 0 2 1 = 1 := by
      unfold pooling.spatial_len
      have : u64.sub (u64.add 2 (u64.mul 2 0)) 2 = 0 := by decide
      rw [this, ceil_div_float_succ_exact 0 1 (by decide) (by decide)]
      norm_num
      rfl
    show Except.ok (shape.standard type_t.float_type
      [1, 1, pooling.spatial_len fp_ieee 2 0 2 1, pooling.spatial_len fp_ieee 2 0 2 1]) = _
    rw [h]

/-- C4 (amended): for one rank-4 input `x`, strides `s ≥ 1` and kernel lengths
below the padded input extent on both spatial axes, if moreover the padded
extent `in + 2 p` is below `2 ^ 64` and the numerator `in + 2 p - k` is below
`2 ^ 24` on both axes, then `pooling::compute_shape` (in either build flavour,
the floating-point expressions evaluated in IEEE single precision) returns the
standard shape of `x`'s element type with lens
`[x.lens[0], x.lens[1], max(1, ⌈(in₀ + 2 p₀ - k₀) / s₀⌉ + 1),
max(1, ⌈(in₁ + 2 p₁ - k₁) / s₁⌉ + 1)]`, the quotients exact; and it fails
when the input count is not 1 or the rank of the input is not 4. -/
theorem pooling_shape (ndebug : Bool) (op : pooling) :
    (∀ x : shape, x.rank = 4 → 1 ≤ op.stride.1 → 1 ≤ op.stride.2 →
      op.lengths.1 < index x.lens 2 + 2 * op.padding.1 →
      op.lengths.2 < index x.lens 3 + 2 * op.padding.2 →
      index x.lens 2 + 2 * op.padding.1 < 2 ^ 64 →
      index x.lens 3 + 2 * op.padding.2 < 2 ^ 64 →
      index x.lens 2 + 2 * op.padding.1 - op.lengths.1 < 2 ^ 24 →
      index x.lens 3 + 2 * op.padding.2 - op.lengths.2 < 2 ^ 24 →
      pooling.compute_shape ndebug fp_ieee op [x] =
        Except.ok (shape.standard x.type
          [index x.lens 0, index x.lens 1,
            (max 1 (⌈((index x.lens 2 + 2 * op.padding.1 - op.lengths.1 : ℕ) : ℚ) /
              (op.stride.1 : ℚ)⌉ + 1)).toNat,
            (max 1 (⌈((index x.lens 3 + 2 * op.padding.2 - op.lengths.2 : ℕ) : ℚ) /
              (op.stride.2 : ℚ)⌉ + 1)).toNat])) ∧
      (∀ (fp : fp_model) (inputs : List shape), inputs.length ≠ 1 →
        ∃ e, pooling.compute_shape ndebug fp op inputs = Except.error e) ∧
      ∀ (fp : fp_model) (x : shape), x.rank ≠ 4 →
        ∃ e, pooling.compute_shape ndebug fp op [x] = Except.error e := by
  refine ⟨?_, fun fp inputs h => ⟨_, pooling_compute_shape_arity ndebug fp op inputs h⟩,
    fun fp x h => ⟨_, pooling_compute_shape_rank ndebug fp op x h⟩⟩
  intro x hx hs0 hs1 hk0 hk1 hw0 hw1 hb0 hb1
  obtain ⟨ha0, hl0⟩ := pooling_spatial_len_exact _ _ _ _ hs0 hk0 hw0 hb0
  obtain ⟨ha1, hl1⟩ := pooling_spatial_len_exact _ _ _ _ hs1 hk1 hw1 hb1
  rw [pooling_compute_shape_single ndebug fp_ieee op x hx, hl0, hl1]
  simp [c_assert, ha0, ha1, Except.bind]

/-- C4 at a concrete input: `[1,8,32,32]` pooled with kernel `{2,2}`, stride
`{2,2}` and no padding gives `[1,8,16,16]`; with kernel `{3,3}`, stride `{2,2}`
and padding `{1,1}` it gives `[1,8,17,17]`. -/
theorem pooling_shape_witness :
    pooling.compute_shape false fp_ieee ⟨"max", (0, 0), (2, 2), (2, 2)⟩
        [shape.standard type_t.float_type [1, 8, 32, 32]] =
      Except.ok (shape.standard type_t.float_type [1, 8, 16, 16]) ∧
    pooling.compute_shape false fp_ieee ⟨"max", (1, 1), (2, 2), (3, 3)⟩
        [shape.standard type_t.float_type [1, 8, 32, 32]] =
      Except.ok (shape.standard type_t.float_type [1, 8, 17, 17]) := by
  constructor
  · rw [(pooling_shape false ⟨"max", (0, 0), (2, 2), (2, 2)⟩).1
      (shape.standard type_t.float_type [1, 8, 32, 32]) rfl (by decide) (by decide) (by decide)
      (by decide) (by decide) (by decide) (by decide) (by decide)]
    have hc : ⌈(30 : ℚ) / 2⌉ = 15 := by
      rw [Int.ceil_eq_iff]; norm_num
    simp [index, shape.standard, hc]
  · rw [(pooling_shape false ⟨"max", (1, 1), (2, 2), (3, 3)⟩).1
      (shape.standard type_t.float_type [1, 8, 32, 32]) rfl (by decide) (by decide) (by decide)
      (by decide) (by decide) (by decide) (by decide) (by decide)]
    have hc : ⌈(31 : ℚ) / 2⌉ = 16 := by
      rw [Int.ceil_eq_iff]; norm_num
    simp [index, shape.standard, hc]

/-- C4 as stated fails once single precision rounds: for the input
`[1,1,16777218,2]`, kernel `{1,1}`, stride `{1,1}` and no padding the kernel is
below the input extent on both axes and the formula for the first spatial
axis gives `max(1, ⌈(16777218 - 1) / 1⌉ + 1) = 16777218`, but `compute_shape`
returns `16777216`: `16777217` is not a single-precision number. -/
theorem pooling_shape_counterexample :
    (1 < 16777218 + 2 * 0 ∧ 1 < 2 + 2 * 0) ∧
    (max 1 (⌈((16777218 + 2 * 0 - 1 : ℕ) : ℚ) / ((1 : ℕ) : ℚ)⌉ + 1)).toNat = 16777218 ∧
    pooling.compute_shape true fp_ieee ⟨"max", (0, 0), (1, 1), (1, 1)⟩
        [shape.standard type_t.float_type [1, 1, 16777218, 2]] =
      Except.ok (shape.standard type_t.float_type [1, 1, 16777216, 2]) ∧
    pooling.compute_shape true fp_ieee ⟨"max", (0, 0), (1, 1), (1, 1)⟩
        [shape.standard type_t.float_type [1, 1, 16777218, 2]] ≠
      Except.ok (shape.standard type_t.float_type [1, 1, 16777218, 2]) := by
  have hcode : pooling.compute_shape true fp_ieee ⟨"max", (0, 0), (1, 1), (1, 1)⟩
        [shape.standard type_t.float_type [1, 1, 16777218, 2]] =
      Except.ok (shape.standard type_t.float_type [1, 1, 16777216, 2]) := by
    rw [pooling_compute_shape_single true fp_ieee ⟨"max", (0, 0), (1, 1), (1, 1)⟩
      (shape.standard type_t.float_type [1, 1, 16777218, 2]) rfl]
    have h0 : pooling.spatial_len fp_ieee 16777218 0 1 1 = 16777216 := by
      unfold pooling.spatial_len
      have : u64.sub (u64.add 16777218 (u64.mul 2 0)) 1 = 16777217 := by decide
      rw [this, ceil_div_float_succ_tie]
      decide
    have h1 : pooling.spatial_len fp_ieee 2 0 1 1 = 2 := by
      have := (pooling_spatial_len_exact 2 0 1 1 (by decide) (by decide) (by decide)
        (by decide)).2
      rw [this]
      norm_num
      rfl
    simp only [c_assert, Bool.true_or, if_true, Except.bind]
    show Except.ok (shape.standard type_t.float_type
      [1, 1, pooling.spatial_len fp_ieee 16777218 0 1 1, pooling.spatial_len fp_ieee 2 0 1 1]) = _
    rw [h0, h1]
  refine ⟨by decide, ?_, hcode, ?_⟩
  · have hc : ⌈(16777217 : ℚ)⌉ = 16777217 := by
      rw [Int.ceil_eq_iff]; norm_num
    norm_num [hc]
    rfl
  · rw [hcode]
    intro h
    have h2 := congrArg (fun r => match r with
      | Except.ok t => index t.lens 2
      | Except.error _ => 0) h
    revert h2
    decide

/-! ### reshape -/

/-- On a single input `reshape::compute_shape` compares the element count of the
standard shape built from the resolved lengths with that of the input. -/
theorem reshape_compute_shape_single (dims : List Int) (s : shape) :
    reshape.compute_shape ⟨dims⟩ [s] =
      if (reshape.resolve_dims dims s.lens).prod ≠ s.elements then
        MIGRAPH_THROW 337 "Wrong number of elements for reshape"
      else Except.ok (shape.standard s.type (reshape.resolve_dims dims s.lens)) := by
  simp [reshape.compute_shape, check_shapes.has, front, shape.elements, shape.standard, bind,
    Except.bind, pure, Except.pure]

/-- Reading a list back entry by entry. -/
theorem range_map_index_i64 {β : Type} (l : List Int) (f : Nat → Int → β)
    (g : Int → β) (h : ∀ i, i < l.length → f i (index_i64 l i) = g (index_i64 l i)) :
    (List.range l.length).map (fun i => f i (index_i64 l i)) = l.map g := by
  apply List.ext_getElem
  · simp
  · intro i h1 h2
    simp only [List.getElem_map, List.getElem_range]
    have hi : i < l.length := by simpa using h1
    rw [h i hi]
    unfold index_i64
    rw [List.getD_eq_getElem l 0 hi]

/-- Without a `0` entry the loop of `reshape::compute_shape` leaves `rdims` as
the conversion of `dims` to `std::size_t`. -/
theorem keep_dims_of_nonzero (dims : List Int) (idims : List Nat) (h : ∀ d ∈ dims, d ≠ 0) :
    reshape.keep_dims dims idims = dims.map to_size_t := by
  unfold reshape.keep_dims
  apply range_map_index_i64 dims
    (fun i d => if d = 0 then index idims i else to_size_t d) to_size_t
  intro i hi
  have hmem : index_i64 dims i ∈ dims := by
    unfold index_i64
    rw [List.getD_eq_getElem dims 0 hi]
    exact List.getElem_mem hi
  simp [h _ hmem]

/-- The resolved lengths for a target `[d₁, …, dₙ₋₁, -1]` with positive `dᵢ`:
the `dᵢ` followed by the source lengths from position `n - 1` on. -/
theorem resolve_dims_trailing (ds : List Int) (idims : List Nat)
    (hpos : ∀ d ∈ ds, 0 < d ∧ d < 2 ^ 63) :
    reshape.resolve_dims (ds ++ [-1]) idims = ds.map Int.toNat ++ idims.drop ds.length := by
  have hnz : ∀ d ∈ ds ++ [-1], d ≠ 0 := by
    intro d hd
    rcases List.mem_append.1 hd with h | h
    · have := (hpos d h).1; omega
    · simp at h; omega
  have hmap : ds.map to_size_t = ds.map Int.toNat := by
    apply List.map_congr_left
    intro d hd
    exact to_size_t_of_nonneg d (le_of_lt (hpos d hd).1) (hpos d hd).2
  unfold reshape.resolve_dims
  simp only [keep_dims_of_nonzero _ _ hnz, List.map_append, hmap]
  simp

/-- C5 (amended): a trailing `-1` stands for the source lengths from its
position on.  For every input shape `s` and every target
`dims = [d₁, …, dₙ₋₁, -1]` with all `dᵢ` positive, `n - 1 ≤ rank s` and
`d₁ ⋯ dₙ₋₁ * (s.lens[n-1] ⋯ s.lens[rank-1]) = s.elements()`,
`reshape::compute_shape` succeeds and returns the standard shape of lens
`[d₁, …, dₙ₋₁, s.lens[n-1], …, s.lens[rank-1]]`, whose element count is that of
`s`. -/
theorem reshape_trailing_minus_one (s : shape) (ds : List Int)
    (hpos : ∀ d ∈ ds, 0 < d ∧ d < 2 ^ 63) (_hlen : ds.length ≤ s.rank)
    (hcount : (ds.map Int.toNat).prod * (s.lens.drop ds.length).prod = s.elements) :
    reshape.compute_shape ⟨ds ++ [-1]⟩ [s] =
        Except.ok (shape.standard s.type (ds.map Int.toNat ++ s.lens.drop ds.length)) ∧
      (shape.standard s.type (ds.map Int.toNat ++ s.lens.drop ds.length)).elements =
        s.elements := by
  have hprod : (ds.map Int.toNat ++ s.lens.drop ds.length).prod = s.elements := by
    rw [List.prod_append, hcount]
  constructor
  · rw [reshape_compute_shape_single, resolve_dims_trailing ds s.lens hpos, if_neg]
    exact not_not.2 hprod
  · exact hprod

/-- C5, instance of the amended statement: input lens `[2,3,4]` with target
`[2,-1]` gives `[2,3,4]`. -/
theorem reshape_trailing_minus_one_witness :
    reshape.compute_shape ⟨[2] ++ [-1]⟩ [shape.standard type_t.float_type [2, 3, 4]] =
        Except.ok (shape.standard type_t.float_type [2, 3, 4]) ∧
      (shape.standard type_t.float_type [2, 3, 4]).elements =
        (shape.standard type_t.float_type [2, 3, 4]).elements :=
  reshape_trailing_minus_one (shape.standard type_t.float_type [2, 3, 4]) [2]
    (by decide) (by decide) (by decide)

/-- C5 as stated fails on its own example: for input lens `[2,3,4]` and target
`[6,-1]`, `6` divides the element count `24`, but `compute_shape` does not
return `[6,4]`; the resolved lengths are `[6,3,4]` and the call fails with
"Wrong number of elements for reshape". -/
theorem reshape_trailing_minus_one_counterexample :
    (6 : Nat) ∣ (shape.standard type_t.float_type [2, 3, 4]).elements ∧
    reshape.resolve_dims [6, -1] [2, 3, 4] = [6, 3, 4] ∧
    reshape.compute_shape ⟨[6, -1]⟩ [shape.standard type_t.float_type [2, 3, 4]] =
      MIGRAPH_THROW 337 "Wrong number of elements for reshape" ∧
    reshape.compute_shape ⟨[6, -1]⟩ [shape.standard type_t.float_type [2, 3, 4]] ≠
      Except.ok (shape.standard type_t.float_type
        [6, (shape.standard type_t.float_type [2, 3, 4]).elements / 6]) := by
  refine ⟨by decide, by decide, by rfl, ?_⟩
  intro h
  have h2 : reshape.compute_shape ⟨[6, -1]⟩ [shape.standard type_t.float_type [2, 3, 4]] =
      MIGRAPH_THROW 337 "Wrong number of elements for reshape" := by rfl
  rw [h2] at h
  exact absurd h (by simp [MIGRAPH_THROW])

/-- C6: `reshape::compute_shape` preserves the element count or fails.  For a
single input `s` and non-empty `dims`: a returned shape has the element count
and the element type of `s`; when the product of the resolved target lengths
differs from `s.elements()` the call fails with "Wrong number of elements for
reshape"; and when the product agrees the call does return, namely the standard
shape of the resolved lengths. -/
theorem reshape_preserves_elements_or_fails (s : shape) (dims : List Int) (_hne : dims ≠ []) :
    (∀ r, reshape.compute_shape ⟨dims⟩ [s] = Except.ok r →
        r.elements = s.elements ∧ r.type = s.type) ∧
      ((reshape.resolve_dims dims s.lens).prod ≠ s.elements →
        reshape.compute_shape ⟨dims⟩ [s] =
          MIGRAPH_THROW 337 "Wrong number of elements for reshape") ∧
      ((reshape.resolve_dims dims s.lens).prod = s.elements →
        reshape.compute_shape ⟨dims⟩ [s] =
          Except.ok (shape.standard s.type (reshape.resolve_dims dims s.lens))) := by
  refine ⟨?_, ?_, ?_⟩
  · intro r hr
    rw [reshape_compute_shape_single] at hr
    by_cases hp : (reshape.resolve_dims dims s.lens).prod = s.elements
    · rw [if_neg (not_not.2 hp)] at hr
      have hr2 : shape.standard s.type (reshape.resolve_dims dims s.lens) = r := by
        injection hr
      subst hr2
      exact ⟨hp, rfl⟩
    · rw [if_pos hp] at hr
      simp [MIGRAPH_THROW] at hr
  · intro hp
    rw [reshape_compute_shape_single, if_pos hp]
  · intro hp
    rw [reshape_compute_shape_single, if_neg (not_not.2 hp)]

/-- C6 at a concrete input: lens `[2,3,4]` reshaped by `[0,12]` is `[2,12]` with
24 elements, and reshaped by `[5,5]` fails. -/
theorem reshape_preserves_elements_or_fails_witness :
    reshape.compute_shape ⟨[0, 12]⟩ [shape.standard type_t.float_type [2, 3, 4]] =
        Except.ok (shape.standard type_t.float_type [2, 12]) ∧
      (shape.standard type_t.float_type [2, 12]).elements =
        (shape.standard type_t.float_type [2, 3, 4]).elements ∧
      reshape.compute_shape ⟨[5, 5]⟩ [shape.standard type_t.float_type [2, 3, 4]] =
        MIGRAPH_THROW 337 "Wrong number of elements for reshape" :=
  ⟨(reshape_preserves_elements_or_fails (shape.standard type_t.float_type [2, 3, 4]) [0, 12]
      (by decide)).2.2 (by decide),
    by decide,
    (reshape_preserves_elements_or_fails (shape.standard type_t.float_type [2, 3, 4]) [5, 5]
      (by decide)).2.1 (by decide)⟩

/-- Without a trailing `-1` the resolved lengths are those left by the loop. -/
theorem resolve_dims_of_no_minus_one (dims : List Int) (idims : List Nat)
    (hno : (-1 : Int) ∉ dims) : reshape.resolve_dims dims idims = reshape.keep_dims dims idims := by
  unfold reshape.resolve_dims
  have : dims.getLast? ≠ some (-1) := by
    intro h
    exact hno (List.mem_of_getLast?_eq_some h)
  simp [this]

/-- Entry `i` of the vector left by the loop of `reshape::compute_shape`. -/
theorem index_keep_dims (dims : List Int) (idims : List Nat) (i : Nat) (hi : i < dims.length) :
    index (reshape.keep_dims dims idims) i =
      if index_i64 dims i = 0 then index idims i else to_size_t (index_i64 dims i) := by
  unfold reshape.keep_dims index
  rw [List.getD_eq_getElem _ 0 (by simpa using hi)]
  simp

/-- C7: `0` entries keep the source length.  For a single input `s` of any
strides and `dims` without `-1` whose `0` entries sit at indices below the rank
of `s`, if the element counts agree then `reshape::compute_shape` returns a
shape of `s`'s element type with standard strides, of the rank of `dims`, whose
entry `i` is `s.lens[i]` where `dims[i]` is `0` and `dims[i]` (converted to
`std::size_t`, which leaves a non-negative `int64_t` unchanged) elsewhere. -/
theorem reshape_keep_entries (s : shape) (dims : List Int)
    (hno : (-1 : Int) ∉ dims)
    (_hzero : ∀ i, i < dims.length → index_i64 dims i = 0 → i < s.rank)
    (hint : ∀ d ∈ dims, d < 2 ^ 63)
    (hcount : (reshape.keep_dims dims s.lens).prod = s.elements) :
    ∃ r, reshape.compute_shape ⟨dims⟩ [s] = Except.ok r ∧ r.type = s.type ∧
      r.strides = calculate_strides r.lens ∧ r.lens.length = dims.length ∧
      ∀ i, i < dims.length →
        index r.lens i =
            (if index_i64 dims i = 0 then index s.lens i else to_size_t (index_i64 dims i)) ∧
          (0 < index_i64 dims i → ((index r.lens i : Nat) : Int) = index_i64 dims i) := by
  refine ⟨shape.standard s.type (reshape.keep_dims dims s.lens), ?_, rfl, rfl, ?_, ?_⟩
  · rw [reshape_compute_shape_single, resolve_dims_of_no_minus_one dims s.lens hno, if_neg]
    exact not_not.2 hcount
  · simp [shape.standard, reshape.keep_dims]
  · intro i hi
    have hidx := index_keep_dims dims s.lens i hi
    refine ⟨hidx, ?_⟩
    intro hpos
    have hmem : index_i64 dims i ∈ dims := by
      unfold index_i64
      rw [List.getD_eq_getElem dims 0 hi]
      exact List.getElem_mem hi
    show ((index (reshape.keep_dims dims s.lens) i : Nat) : Int) = index_i64 dims i
    rw [hidx, if_neg (by omega), to_size_t_of_nonneg _ (le_of_lt hpos) (hint _ hmem)]
    exact Int.toNat_of_nonneg (le_of_lt hpos)

/-- C7 at a concrete input: a transposed (non-standard) view of lens `[4,3,2]`
with strides `[1,4,12]`, reshaped by `[0,6]`, has lens `[4,6]` and standard
strides. -/
theorem reshape_keep_entries_witness :
    ∃ r, reshape.compute_shape ⟨[0, 6]⟩ [⟨type_t.int32_type, [4, 3, 2], [1, 4, 12]⟩] =
        Except.ok r ∧ r.type = type_t.int32_type ∧
      r.strides = calculate_strides r.lens ∧ r.lens.length = [(0 : Int), 6].length ∧
      ∀ i, i < [(0 : Int), 6].length →
        index r.lens i =
            (if index_i64 [0, 6] i = 0 then index [4, 3, 2] i
              else to_size_t (index_i64 [0, 6] i)) ∧
          (0 < index_i64 [0, 6] i → ((index r.lens i : Nat) : Int) = index_i64 [0, 6] i) :=
  reshape_keep_entries ⟨type_t.int32_type, [4, 3, 2], [1, 4, 12]⟩ [0, 6]
    (by decide) (by decide) (by decide) (by decide)

/-! ### transpose -/

/-- On a single input `transpose::compute_shape` checks the number of axes, then
the permutation, and then gathers lens and strides. -/
theorem transpose_compute_shape_single (dims : List Int) (s : shape) :
    transpose.compute_shape ⟨dims⟩ [s] =
      if dims.length ≠ s.lens.length then
        MIGRAPH_THROW 273 "Permutation has wrong number of axes"
      else if !is_permutation (iota dims.length) dims then
        MIGRAPH_THROW 279 "Invalid permutation"
      else
        Except.ok
          { type := s.type
            lens := (List.range s.lens.length).map
              (fun i => index s.lens (to_size_t (index_i64 dims i)))
            strides := (List.range s.lens.length).map
              (fun i => index s.strides (to_size_t (index_i64 dims i))) } := by
  simp [transpose.compute_shape, check_shapes.has, vector_at, bind, Except.bind, pure,
    Except.pure]

/-- With any number of inputs other than one `transpose::compute_shape` fails in
`has(1)`. -/
theorem transpose_compute_shape_arity (dims : List Int) (inputs : List shape)
    (h : inputs.length ≠ 1) :
    transpose.compute_shape ⟨dims⟩ inputs =
      MIGRAPH_THROW 36 ("transpose: Wrong number of arguments: expected " ++ toString 1 ++
        " but given " ++ toString inputs.length) := by
  simp [transpose.compute_shape, check_shapes.has, h, bind, Except.bind, transpose.name,
    check_shapes.prefix_]
  rfl

/-- `std::is_permutation` against a range of the same length is the
rearrangement relation of lists. -/
theorem is_permutation_iff (n : Nat) (dims : List Int) (h : dims.length = n) :
    is_permutation (iota n) dims = true ↔ List.Perm dims (iota n) := by
  unfold is_permutation
  have hl : (iota n).length = dims.length := by simp [iota, h]
  rw [hl, List.take_length, List.isPerm_iff]
  exact ⟨List.Perm.symm, List.Perm.symm⟩

/-- Every index below `n` occurs once in `iota n`, and nothing else occurs. -/
theorem count_iota (n : Nat) (z : Int) :
    (iota n).count z = if 0 ≤ z ∧ z < (n : Int) then 1 else 0 := by
  have hnd : (iota n).Nodup := by
    unfold iota
    exact (List.nodup_range n).map Int.ofNat_injective
  have hmem : z ∈ iota n ↔ 0 ≤ z ∧ z < (n : Int) := by
    unfold iota
    simp only [List.mem_map, List.mem_range]
    constructor
    · rintro ⟨i, hi, rfl⟩
      exact ⟨Int.ofNat_nonneg i, Int.ofNat_lt.2 hi⟩
    · rintro ⟨h0, h1⟩
      refine ⟨z.toNat, by omega, ?_⟩
      simp [Int.toNat_of_nonneg h0]
  by_cases hz : 0 ≤ z ∧ z < (n : Int)
  · rw [if_pos hz]
    exact List.count_eq_one_of_mem hnd (hmem.2 hz)
  · rw [if_neg hz]
    exact List.count_eq_zero_of_not_mem (fun hm => hz (hmem.1 hm))

/-- C8: `transpose::compute_shape` accepts exactly the true permutations.  For a
single input `s` of rank `r` and any `dims`, the call succeeds if and only if
`dims` has length `r` and every index `0 ≤ z < r` occurs in it exactly once and
no other value occurs, equivalently, if and only if `dims` has length `r` and is
a rearrangement of `0, …, r - 1`; and the call fails whenever the number of
inputs is not 1. -/
theorem transpose_accepts_exactly_permutations (s : shape) (dims : List Int) :
    ((∃ r, transpose.compute_shape ⟨dims⟩ [s] = Except.ok r) ↔
        dims.length = s.rank ∧
          ∀ z : Int, dims.count z = if 0 ≤ z ∧ z < (s.rank : Int) then 1 else 0) ∧
      ((∃ r, transpose.compute_shape ⟨dims⟩ [s] = Except.ok r) ↔
        dims.length = s.rank ∧ List.Perm dims (iota s.rank)) ∧
      ∀ inputs : List shape, inputs.length ≠ 1 →
        ∃ e, transpose.compute_shape ⟨dims⟩ inputs = Except.error e := by
  have key : (∃ r, transpose.compute_shape ⟨dims⟩ [s] = Except.ok r) ↔
      dims.length = s.rank ∧ List.Perm dims (iota s.rank) := by
    rw [transpose_compute_shape_single]
    unfold shape.rank
    by_cases hlen : dims.length = s.lens.length
    · rw [if_neg (not_not.2 hlen)]
      by_cases hperm : is_permutation (iota dims.length) dims = true
      · have hp := (is_permutation_iff dims.length dims rfl).1 hperm
        simp only [hperm, Bool.not_true, Bool.false_eq_true, if_false]
        rw [hlen] at hp
        exact ⟨fun _ => ⟨hlen, hp⟩, fun _ => ⟨_, rfl⟩⟩
      · have hp : ¬ List.Perm dims (iota s.lens.length) := by
          intro h
          rw [← hlen] at h
          exact hperm ((is_permutation_iff dims.length dims rfl).2 h)
        simp only [Bool.not_eq_true] at hperm
        simp only [hperm, Bool.not_false, if_true]
        constructor
        · rintro ⟨r, hr⟩
          simp [MIGRAPH_THROW] at hr
        · rintro ⟨_, h⟩
          exact absurd h hp
    · rw [if_pos hlen]
      constructor
      · rintro ⟨r, hr⟩
        simp [MIGRAPH_THROW] at hr
      · rintro ⟨h, _⟩
        exact absurd h hlen
  refine ⟨?_, key, ?_⟩
  · rw [key]
    constructor
    · rintro ⟨hlen, hperm⟩
      refine ⟨hlen, fun z => ?_⟩
      rw [hperm.count_eq z, count_iota]
    · rintro ⟨hlen, hcount⟩
      refine ⟨hlen, List.perm_iff_count.2 (fun z => ?_)⟩
      rw [hcount z, count_iota]
  · intro inputs hne
    exact ⟨_, transpose_compute_shape_arity dims inputs hne⟩

/-- Reading a vector of `std::size_t` back entry by entry. -/
theorem range_map_index (v : List Nat) : (List.range v.length).map (index v) = v := by
  apply List.ext_getElem
  · simp
  · intro i h1 h2
    simp only [List.getElem_map, List.getElem_range]
    unfold index
    rw [List.getD_eq_getElem v 0 h2]

/-- An entry of a permutation of `0, …, r - 1` made of `int64_t` values is an
index below `r`, and converting it to `std::size_t` keeps its value. -/
theorem perm_entry (r : Nat) (dims : List Int) (hperm : List.Perm dims (iota r))
    (hint : ∀ d ∈ dims, d < 2 ^ 63) (i : Nat) (hi : i < r) :
    0 ≤ index_i64 dims i ∧ (index_i64 dims i).toNat < r ∧
      to_size_t (index_i64 dims i) = (index_i64 dims i).toNat := by
  have hlen : dims.length = r := by
    rw [hperm.length_eq]; simp [iota]
  have hmem : index_i64 dims i ∈ dims := by
    unfold index_i64
    rw [List.getD_eq_getElem dims 0 (by omega)]
    exact List.getElem_mem _
  have hmem2 : index_i64 dims i ∈ iota r := hperm.mem_iff.1 hmem
  unfold iota at hmem2
  simp only [List.mem_map, List.mem_range] at hmem2
  obtain ⟨j, hj, hji⟩ := hmem2
  have h0 : 0 ≤ index_i64 dims i := by rw [← hji]; exact Int.ofNat_nonneg j
  refine ⟨h0, ?_, to_size_t_of_nonneg _ h0 (hint _ hmem)⟩
  rw [← hji]
  exact hj

/-- Gathering a vector along a permutation of its indices rearranges it. -/
theorem gather_perm (v : List Nat) (dims : List Int)
    (hperm : List.Perm dims (iota v.length)) (hint : ∀ d ∈ dims, d < 2 ^ 63) :
    List.Perm ((List.range v.length).map (fun i => index v (to_size_t (index_i64 dims i)))) v := by
  have hlen : dims.length = v.length := by
    rw [hperm.length_eq]; simp [iota]
  have h1 : (List.range v.length).map (fun i => index v (to_size_t (index_i64 dims i))) =
      dims.map (fun d => index v (to_size_t d)) := by
    rw [← hlen]
    exact range_map_index_i64 dims (fun _ d => index v (to_size_t d))
      (fun d => index v (to_size_t d)) (fun _ _ => rfl)
  have h2 : (iota v.length).map (fun d => index v (to_size_t d)) = v := by
    have hcongr : (iota v.length).map (fun d => index v (to_size_t d)) =
        (iota v.length).map (fun d => index v d.toNat) := by
      apply List.map_congr_left
      intro d hd
      have hd2 : d ∈ dims := hperm.mem_iff.2 hd
      have h0 : 0 ≤ d := by
        unfold iota at hd
        simp only [List.mem_map, List.mem_range] at hd
        obtain ⟨j, _, hj⟩ := hd
        rw [← hj]; exact Int.ofNat_nonneg j
      rw [to_size_t_of_nonneg d h0 (hint d hd2)]
    rw [hcongr]
    unfold iota
    rw [List.map_map]
    have : ((fun d : Int => index v d.toNat) ∘ Int.ofNat) = index v := by
      funext i
      simp [Function.comp]
    rw [this, range_map_index]
  rw [h1]
  have := hperm.map (fun d => index v (to_size_t d))
  rw [h2] at this
  exact this

/-- C9: `transpose::compute_shape` reorders lens and strides by the permutation.
For an input `s` of rank `r` and a permutation `dims` of `0, …, r - 1` (made of
`int64_t` values) the call returns a shape of `s`'s element type with
`lens[i] = s.lens[dims[i]]` and `strides[i] = s.strides[dims[i]]` for every
`i < r`, of rank `r`, and with the element count of `s`. -/
theorem transpose_reorders (s : shape) (dims : List Int)
    (hperm : List.Perm dims (iota s.rank)) (hint : ∀ d ∈ dims, d < 2 ^ 63) :
    ∃ r, transpose.compute_shape ⟨dims⟩ [s] = Except.ok r ∧ r.type = s.type ∧
      r.lens.length = s.rank ∧ r.strides.length = s.rank ∧
      (∀ i, i < s.rank →
        index r.lens i = index s.lens (index_i64 dims i).toNat ∧
          index r.strides i = index s.strides (index_i64 dims i).toNat) ∧
      r.elements = s.elements := by
  have hlen : dims.length = s.lens.length := by
    rw [hperm.length_eq]; simp [iota, shape.rank]
  have hisp : is_permutation (iota dims.length) dims = true :=
    (is_permutation_iff dims.length dims rfl).2 (by rw [hlen]; exact hperm)
  refine ⟨{ type := s.type
            lens := (List.range s.lens.length).map
              (fun i => index s.lens (to_size_t (index_i64 dims i)))
            strides := (List.range s.lens.length).map
              (fun i => index s.strides (to_size_t (index_i64 dims i))) },
    ?_, rfl, ?_, ?_, ?_, ?_⟩
  · rw [transpose_compute_shape_single, if_neg (not_not.2 hlen)]
    simp only [hisp, Bool.not_true, Bool.false_eq_true, if_false]
  · simp [shape.rank]
  · simp [shape.rank]
  · intro i hi
    have hent := perm_entry s.rank dims hperm hint i hi
    unfold shape.rank at hi
    constructor
    · show index ((List.range s.lens.length).map _) i = _
      unfold index
      rw [List.getD_eq_getElem _ 0 (by simpa using hi)]
      simp only [List.getElem_map, List.getElem_range]
      unfold index at hent
      rw [hent.2.2]
    · show index ((List.range s.lens.length).map _) i = _
      unfold index
      rw [List.getD_eq_getElem _ 0 (by simpa using hi)]
      simp only [List.getElem_map, List.getElem_range]
      rw [hent.2.2]
  · show ((List.range s.lens.length).map _).prod = s.lens.prod
    exact (gather_perm s.lens dims hperm hint).prod_eq

/-- C9 at a concrete input: the standard shape of lens `[2,3,4]` transposed by
`[1,2,0]`. -/
theorem transpose_reorders_witness :
    ∃ r, transpose.compute_shape ⟨[1, 2, 0]⟩ [shape.standard type_t.float_type [2, 3, 4]] =
        Except.ok r ∧ r.type = type_t.float_type ∧
      r.lens.length = 3 ∧ r.strides.length = 3 ∧
      (∀ i, i < 3 →
        index r.lens i = index [2, 3, 4] (index_i64 [1, 2, 0] i).toNat ∧
          index r.strides i = index [12, 4, 1] (index_i64 [1, 2, 0] i).toNat) ∧
      r.elements = 24 :=
  transpose_reorders (shape.standard type_t.float_type [2, 3, 4]) [1, 2, 0]
    (by decide) (by decide)

/-- Gathering along `p` and then along `q`, where `p[q[i]] = i`, gives the
vector back. -/
theorem gather_gather (v : List Nat) (r : Nat) (hv : v.length = r) (p q : List Int)
    (hp : List.Perm p (iota r)) (hq : List.Perm q (iota r))
    (hqint : ∀ d ∈ q, d < 2 ^ 63)
    (hinv : ∀ i, i < r → index_i64 p (index_i64 q i).toNat = (i : Int)) :
    (List.range r).map (fun i =>
        index ((List.range r).map (fun j => index v (to_size_t (index_i64 p j))))
          (to_size_t (index_i64 q i))) = v := by
  have hplen : p.length = r := by
    rw [hp.length_eq]; simp [iota]
  apply List.ext_getElem
  · simp [hv]
  · intro i h1 h2
    have hi : i < r := by simpa using h1
    obtain ⟨_, hlt, hconv⟩ := perm_entry r q hq hqint i hi
    simp only [List.getElem_map, List.getElem_range]
    rw [hconv]
    unfold index
    rw [List.getD_eq_getElem _ 0 (by simpa using hlt)]
    simp only [List.getElem_map, List.getElem_range]
    rw [hinv i hi]
    have : to_size_t (i : Int) = i := by
      unfold to_size_t
      have hi63 : (i : Int) < 2 ^ 63 := by
        have hmem : (i : Int) ∈ q := by
          apply hq.mem_iff.2
          unfold iota
          simp only [List.mem_map, List.mem_range]
          exact ⟨i, hi, rfl⟩
        exact hqint _ hmem
      rw [Int.emod_eq_of_lt (Int.ofNat_nonneg i) (by omega)]
      simp
    rw [this, List.getD_eq_getElem v 0 h2]

/-- C10: transposing by a permutation `p` and then by its inverse `q` gives the
shape back.  For every shape `s` of rank `r` with as many strides as lengths and
all permutations `p`, `q` of `0, …, r - 1` (made of `int64_t` values) with
`p[q[i]] = i` for every `i < r`, transposing `s` by `p` succeeds, and
transposing the result by `q` succeeds and returns `s`: same element type, lens
and strides. -/
theorem transpose_round_trip (s : shape) (p q : List Int)
    (hs : s.strides.length = s.lens.length)
    (hp : List.Perm p (iota s.rank)) (hq : List.Perm q (iota s.rank))
    (hqint : ∀ d ∈ q, d < 2 ^ 63)
    (hinv : ∀ i, i < s.rank → index_i64 p (index_i64 q i).toNat = (i : Int)) :
    ∃ t, transpose.compute_shape ⟨p⟩ [s] = Except.ok t ∧
      transpose.compute_shape ⟨q⟩ [t] = Except.ok s := by
  have hplen : p.length = s.lens.length := by
    rw [hp.length_eq]; simp [iota, shape.rank]
  have hqlen : q.length = s.lens.length := by
    rw [hq.length_eq]; simp [iota, shape.rank]
  have hpisp : is_permutation (iota p.length) p = true :=
    (is_permutation_iff p.length p rfl).2 (by rw [hplen]; exact hp)
  have hqisp : is_permutation (iota q.length) q = true :=
    (is_permutation_iff q.length q rfl).2 (by rw [hqlen]; exact hq)
  refine ⟨{ type := s.type
            lens := (List.range s.lens.length).map
              (fun i => index s.lens (to_size_t (index_i64 p i)))
            strides := (List.range s.lens.length).map
              (fun i => index s.strides (to_size_t (index_i64 p i))) }, ?_, ?_⟩
  · rw [transpose_compute_shape_single, if_neg (not_not.2 hplen)]
    simp only [hpisp, Bool.not_true, Bool.false_eq_true, if_false]
  · rw [transpose_compute_shape_single]
    simp only [List.length_map, List.length_range]
    rw [if_neg (not_not.2 hqlen)]
    simp only [hqisp, Bool.not_true, Bool.false_eq_true, if_false]
    rw [gather_gather s.lens s.lens.length rfl p q hp hq hqint hinv,
      gather_gather s.strides s.lens.length hs p q hp hq hqint hinv]

/-- C10 at a concrete input: a non-standard shape of lens `[2,3,4]` and strides
`[1,2,6]`, the permutation `[1,2,0]` and its inverse `[2,0,1]`. -/
theorem transpose_round_trip_witness :
    ∃ t, transpose.compute_shape ⟨[1, 2, 0]⟩ [⟨type_t.float_type, [2, 3, 4], [1, 2, 6]⟩] =
        Except.ok t ∧
      transpose.compute_shape ⟨[2, 0, 1]⟩ [t] =
        Except.ok ⟨type_t.float_type, [2, 3, 4], [1, 2, 6]⟩ :=
  transpose_round_trip ⟨type_t.float_type, [2, 3, 4], [1, 2, 6]⟩ [1, 2, 0] [2, 0, 1]
    (by decide) (by decide) (by decide) (by decide) (by decide)

/-! ### gemm -/

/-- C11: `gemm::compute_shape` on two rank-2 shapes `[m,k]` and `[k2,n]` of the
same element type (of any strides) returns the standard shape `[m,n]` of that
type when `k = k2` and fails with "Inner dimensions do not match" when
`k ≠ k2`; it fails when the element types of the two inputs differ and when the
number of inputs is not 2. -/
theorem gemm_shape (op : gemm) :
    (∀ (t : type_t) (m k k2 n : Nat) (sa sb : List Nat),
      (k = k2 → gemm.compute_shape op [⟨t, [m, k], sa⟩, ⟨t, [k2, n], sb⟩] =
        Except.ok (shape.standard t [m, n])) ∧
      (k ≠ k2 → gemm.compute_shape op [⟨t, [m, k], sa⟩, ⟨t, [k2, n], sb⟩] =
        MIGRAPH_THROW 366 "Inner dimensions do not match")) ∧
    (∀ a b : shape, a.type ≠ b.type →
      gemm.compute_shape op [a, b] = MIGRAPH_THROW 62 "gemm: Types do not match") ∧
    ∀ inputs : List shape, inputs.length ≠ 2 →
      gemm.compute_shape op inputs =
        MIGRAPH_THROW 36 ("gemm: Wrong number of arguments: expected " ++ toString 2 ++
          " but given " ++ toString inputs.length) := by
  refine ⟨?_, ?_, ?_⟩
  · intro t m k k2 n sa sb
    constructor
    · intro h
      simp [gemm.compute_shape, check_shapes.has, check_shapes.same_type, check_shapes.same,
        check_shapes.all_of, vector_at, index, h, bind, Except.bind, pure, Except.pure]
    · intro h
      simp [gemm.compute_shape, check_shapes.has, check_shapes.same_type, check_shapes.same,
        check_shapes.all_of, vector_at, index, h, bind, Except.bind]
  · intro a b h
    have h2 : ¬ b.type = a.type := fun e => h e.symm
    simp [gemm.compute_shape, check_shapes.has, check_shapes.same_type, check_shapes.same,
      check_shapes.all_of, h2, bind, Except.bind, gemm.name, check_shapes.prefix_]
    rfl
  · intro inputs h
    simp [gemm.compute_shape, check_shapes.has, h, bind, Except.bind, gemm.name,
      check_shapes.prefix_]
    rfl

/-! ### The binary family -/

/-- C17: for each of `add`, `sub`, `mul`, `div`, every value of the
implicit-broadcast flag and every input list, `compute_shape` succeeds if and
only if the list consists of exactly two shapes with equal element type and
equal lens, and it then returns the first input unchanged, strides included,
whatever the strides of the second input. -/
theorem binary_shape (op : binary_family) :
    (∀ inputs : List shape,
      (∃ r, binary_family.compute_shape op inputs = Except.ok r) ↔
        ∃ a b, inputs = [a, b] ∧ a.type = b.type ∧ a.lens = b.lens) ∧
    ∀ a b : shape, a.type = b.type → a.lens = b.lens →
      binary_family.compute_shape op [a, b] = Except.ok a := by
  have hok : ∀ a b : shape, a.type = b.type → a.lens = b.lens →
      binary_family.compute_shape op [a, b] = Except.ok a := by
    intro a b ht hl
    simp [binary_family.compute_shape, binary.compute_shape, check_shapes.has,
      check_shapes.same_type, check_shapes.same_dims, check_shapes.same, check_shapes.all_of,
      vector_at, ht, hl, bind, Except.bind]
  refine ⟨?_, hok⟩
  intro inputs
  constructor
  · rintro ⟨r, hr⟩
    match inputs, hr with
    | [], hr =>
      simp [binary_family.compute_shape, binary.compute_shape, check_shapes.has, bind,
        Except.bind, MIGRAPH_THROW] at hr
    | [a], hr =>
      simp [binary_family.compute_shape, binary.compute_shape, check_shapes.has, bind,
        Except.bind, MIGRAPH_THROW] at hr
    | [a, b], hr =>
      refine ⟨a, b, rfl, ?_⟩
      by_cases ht : b.type = a.type
      · by_cases hl : b.lens = a.lens
        · exact ⟨ht.symm, hl.symm⟩
        · simp [binary_family.compute_shape, binary.compute_shape, check_shapes.has,
            check_shapes.same_type, check_shapes.same_dims, check_shapes.same,
            check_shapes.all_of, ht, hl, bind, Except.bind, MIGRAPH_THROW] at hr
      · simp [binary_family.compute_shape, binary.compute_shape, check_shapes.has,
          check_shapes.same_type, check_shapes.same, check_shapes.all_of, ht, bind,
          Except.bind, MIGRAPH_THROW] at hr
    | a :: b :: c :: rest, hr =>
      simp [binary_family.compute_shape, binary.compute_shape, check_shapes.has, bind,
        Except.bind, MIGRAPH_THROW] at hr
  · rintro ⟨a, b, rfl, ht, hl⟩
    exact ⟨a, hok a b ht hl⟩

/-- C17 at a concrete input: `add` with the flag set, on a broadcast view
`[2,3]` with strides `[0,1]` and a standard `[2,3]`, returns the first input
with its strides `[0,1]`. -/
theorem binary_shape_witness :
    binary_family.compute_shape ⟨binary_kind.add, ⟨1⟩⟩
        [⟨type_t.float_type, [2, 3], [0, 1]⟩, shape.standard type_t.float_type [2, 3]] =
      Except.ok ⟨type_t.float_type, [2, 3], [0, 1]⟩ :=
  (binary_shape ⟨binary_kind.add, ⟨1⟩⟩).2 ⟨type_t.float_type, [2, 3], [0, 1]⟩
    (shape.standard type_t.float_type [2, 3]) rfl rfl

/-! ### The unary family and activation -/

/-- C18: each operator of the unary family and `activation` with any mode
return their single input shape unchanged (element type, lens and strides,
standard or not), and fail for every input list whose length is not 1. -/
theorem unary_passthrough :
    (∀ (op : unary_family) (s : shape), unary_family.compute_shape op [s] = Except.ok s) ∧
    (∀ (op : activation) (s : shape), activation.compute_shape op [s] = Except.ok s) ∧
    (∀ (op : unary_family) (inputs : List shape), inputs.length ≠ 1 →
      unary_family.compute_shape op inputs =
        MIGRAPH_THROW 36 ("Wrong number of arguments: expected " ++ toString 1 ++
          " but given " ++ toString inputs.length)) ∧
    ∀ (op : activation) (inputs : List shape), inputs.length ≠ 1 →
      activation.compute_shape op inputs =
        MIGRAPH_THROW 36 ("activation: Wrong number of arguments: expected " ++ toString 1 ++
          " but given " ++ toString inputs.length) := by
  refine ⟨?_, ?_, ?_, ?_⟩
  · intro op s
    simp [unary_family.compute_shape, unary.compute_shape, check_shapes.has, vector_at, bind,
      Except.bind]
  · intro op s
    simp [activation.compute_shape, check_shapes.has, front, bind, Except.bind, pure,
      Except.pure]
  · intro op inputs h
    simp [unary_family.compute_shape, unary.compute_shape, check_shapes.has, h, bind,
      Except.bind, check_shapes.prefix_]
    rfl
  · intro op inputs h
    simp [activation.compute_shape, check_shapes.has, h, bind, Except.bind, activation.name,
      check_shapes.prefix_]
    rfl

/-- C18 at a concrete input: `tanh` and `activation` on a non-standard shape,
and `abs` on an empty input list. -/
theorem unary_passthrough_witness :
    unary_family.compute_shape unary_family.tanh [⟨type_t.int8_type, [2, 3], [1, 2]⟩] =
      Except.ok ⟨type_t.int8_type, [2, 3], [1, 2]⟩ ∧
    activation.compute_shape ⟨"relu"⟩ [⟨type_t.int8_type, [2, 3], [1, 2]⟩] =
      Except.ok ⟨type_t.int8_type, [2, 3], [1, 2]⟩ ∧
    unary_family.compute_shape unary_family.abs [] =
      MIGRAPH_THROW 36 ("Wrong number of arguments: expected " ++ toString 1 ++
        " but given " ++ toString ([] : List shape).length) :=
  ⟨unary_passthrough.1 _ _, unary_passthrough.2.1 _ _,
    unary_passthrough.2.2.1 unary_family.abs [] (by decide)⟩

/-! ### contiguous -/

/-- On a single input `contiguous::compute_shape` depends on the rank alone. -/
theorem contiguous_compute_shape_single (op : contiguous) (s : shape) :
    contiguous.compute_shape op [s] =
      if s.lens.length < 2 then MIGRAPH_THROW 306 "Number of dimensions should exceed 1"
      else Except.ok (shape.standard s.type s.lens) := by
  simp [contiguous.compute_shape, check_shapes.has, vector_at, bind, Except.bind, pure,
    Except.pure]

/-- C19: on a single input `s`, `contiguous::compute_shape` succeeds if and only
if the rank of `s` exceeds 1, and then returns the standard shape of the element
type and lens of `s`, whatever the strides of `s`; hence applying it to its own
result gives that result again, and a standard shape of rank above 1 is
returned unchanged. -/
theorem contiguous_shape (op : contiguous) :
    (∀ s : shape, (∃ r, contiguous.compute_shape op [s] = Except.ok r) ↔ 1 < s.rank) ∧
    (∀ s : shape, 1 < s.rank →
      contiguous.compute_shape op [s] = Except.ok (shape.standard s.type s.lens)) ∧
    (∀ s r : shape, contiguous.compute_shape op [s] = Except.ok r →
      contiguous.compute_shape op [r] = Except.ok r) ∧
    ∀ (t : type_t) (l : List Nat), 1 < l.length →
      contiguous.compute_shape op [shape.standard t l] = Except.ok (shape.standard t l) := by
  have hok : ∀ s : shape, 1 < s.rank →
      contiguous.compute_shape op [s] = Except.ok (shape.standard s.type s.lens) := by
    intro s h
    unfold shape.rank at h
    rw [contiguous_compute_shape_single, if_neg (by omega)]
  have hiff : ∀ s : shape, (∃ r, contiguous.compute_shape op [s] = Except.ok r) ↔ 1 < s.rank := by
    intro s
    constructor
    · rintro ⟨r, hr⟩
      by_contra h
      unfold shape.rank at h
      rw [contiguous_compute_shape_single, if_pos (by omega)] at hr
      simp [MIGRAPH_THROW] at hr
    · intro h
      exact ⟨_, hok s h⟩
  refine ⟨hiff, hok, ?_, ?_⟩
  · intro s r hr
    have hs : 1 < s.rank := (hiff s).1 ⟨r, hr⟩
    rw [hok s hs] at hr
    have hr2 : shape.standard s.type s.lens = r := by injection hr
    subst hr2
    exact hok _ hs
  · intro t l h
    exact hok (shape.standard t l) h

/-- C19 at a concrete input: the transposed view of lens `[3,2]` with strides
`[1,3]` becomes the standard shape with strides `[2,1]`, and a rank-1 shape is
refused. -/
theorem contiguous_shape_witness :
    contiguous.compute_shape {} [⟨type_t.float_type, [3, 2], [1, 3]⟩] =
      Except.ok ⟨type_t.float_type, [3, 2], [2, 1]⟩ ∧
    ¬ ∃ r, contiguous.compute_shape {} [⟨type_t.float_type, [3], [1]⟩] = Except.ok r :=
  ⟨(contiguous_shape {}).2.1 ⟨type_t.float_type, [3, 2], [1, 3]⟩ (by decide),
    fun h => absurd (((contiguous_shape {}).1 ⟨type_t.float_type, [3], [1]⟩).1 h) (by decide)⟩

/-! ### check_shapes -/

/-- C20 (amended): `only_dims(n)` checks the first input.  For every non-empty
shape list and every `n` it raises "Only `n`d supported", prefixed with the
operator name, when the first shape of the list has a rank different from `n`,
and passes when the first shape has rank `n`, whatever the ranks of the other
shapes. -/
theorem only_dims_checks_front (name : String) (first : shape) (rest : List shape) (n : Nat) :
    (first.rank ≠ n →
      (check_shapes.mk (first :: rest) name).only_dims n =
        MIGRAPH_THROW 47 ((check_shapes.mk (first :: rest) name).prefix_ ++ "Only " ++
          toString n ++ "d supported")) ∧
    (first.rank = n →
      (check_shapes.mk (first :: rest) name).only_dims n =
        Except.ok (check_shapes.mk (first :: rest) name)) := by
  unfold shape.rank
  constructor
  · intro h
    simp [check_shapes.only_dims, h]
  · intro h
    simp [check_shapes.only_dims, h]

/-- C20 as stated fails: in the list of a rank-4 shape followed by a rank-2
shape, the second shape has a rank different from 4, yet `only_dims(4)`
passes. -/
theorem only_dims_counterexample :
    (shape.standard type_t.float_type [1, 2]).rank ≠ 4 ∧
    (check_shapes.mk [shape.standard type_t.float_type [1, 2, 3, 4],
        shape.standard type_t.float_type [1, 2]] "pooling").only_dims 4 =
      Except.ok (check_shapes.mk [shape.standard type_t.float_type [1, 2, 3, 4],
        shape.standard type_t.float_type [1, 2]] "pooling") :=
  ⟨by decide, by rfl⟩

/-! ### broadcast -/

/-- The check of `broadcast::compute_shape` for a target with all lengths 1. -/
theorem all_ones_iff (v : List Nat) : all_ones v = true ↔ ∀ l ∈ v, l = 1 := by
  unfold all_ones
  simp [List.all_eq_true]

/-- On two inputs `broadcast::compute_shape` first tests the lengths of the first
input, the target. -/
theorem broadcast_compute_shape_pair (ndebug : Bool) (op : broadcast) (T O : shape) :
    broadcast.compute_shape ndebug op [T, O] =
      if all_ones T.lens then
        if op.axis ≠ 0 then
          MIGRAPH_THROW 481 "when broadcasting tensor of size 1, axis should be 0"
        else Except.ok { type := T.type, lens := T.lens,
                         strides := List.replicate T.lens.length 0 }
      else
        (c_assert ndebug "result.lens().size() - axis >= input.lens().size()"
            (decide (O.lens.length ≤ u64.sub T.lens.length op.axis))).bind
          (fun _ =>
            if !std_equal O.lens T.lens op.axis then
              MIGRAPH_THROW 488 "when broadcasting success sizes must match"
            else
              Except.ok { type := T.type, lens := T.lens,
                          strides := std_copy O.strides (List.replicate T.lens.length 0)
                            op.axis }) := by
  simp only [broadcast.compute_shape, vector_at, bind, Except.bind, pure, Except.pure,
    List.get?_cons_zero, List.get?_cons_succ]

/-- Entry `i` of a vector after `std::copy` into it. -/
theorem index_std_copy (src dst : List Nat) (pos i : Nat) (hi : i < dst.length) :
    index (std_copy src dst pos) i =
      if pos ≤ i ∧ i - pos < src.length then index src (i - pos) else index dst i := by
  unfold std_copy index
  rw [List.getD_eq_getElem _ 0 (by simpa using hi)]
  simp

/-- `std::equal` against a range that lies inside the vector compares the first
range with that segment of the vector. -/
theorem std_equal_iff (range1 v : List Nat) (pos : Nat) (h : pos + range1.length ≤ v.length) :
    std_equal range1 v pos = true ↔ range1 = (v.drop pos).take range1.length := by
  unfold std_equal
  simp only [List.all_eq_true, List.mem_range, decide_eq_true_eq]
  constructor
  · intro hall
    apply List.ext_getElem
    · simp; omega
    · intro j h1 h2
      have := hall j h1
      unfold index at this
      rw [List.getD_eq_getElem _ 0 h1, List.getD_eq_getElem _ 0 (by omega)] at this
      simp [this]
  · intro heq j hj
    unfold index
    rw [List.getD_eq_getElem _ 0 hj, List.getD_eq_getElem _ 0 (by omega)]
    have h3 : j < ((v.drop pos).take range1.length).length := by
      simp; omega
    have : range1[j] = ((v.drop pos).take range1.length)[j] := by
      congr 1
    rw [this]
    simp

/-- The `assert` of `broadcast::compute_shape` holds when the operand fits into
the target from `axis` on. -/
theorem broadcast_assert_holds (rankT rankO axis : Nat) (hfit : axis + rankO ≤ rankT)
    (hsize : rankT < u64.modulus) : rankO ≤ u64.sub rankT axis := by
  unfold u64.modulus at hsize
  unfold u64.sub u64.modulus
  omega

/-- C12: the result of `broadcast::compute_shape` on a match.  For inputs
`[T, O]` and an axis such that `T` is not all-lengths-1, `axis + rank O = rank T`
and `O.lens` is the suffix of `T.lens` that starts at `axis` (`O` having as many
strides as lengths), the call succeeds in either build flavour and returns the
shape with `T`'s element type, `lens = T.lens`, `strides[i] = 0` for `i < axis`
and `strides[axis + j] = O.strides[j]` for every `j < rank O`. -/
theorem broadcast_match (ndebug : Bool) (op : broadcast) (T O : shape)
    (hT : ¬ ∀ l ∈ T.lens, l = 1) (haxis : op.axis + O.rank = T.rank)
    (hsuffix : O.lens = T.lens.drop op.axis) (hO : O.strides.length = O.lens.length)
    (hsize : T.rank < u64.modulus) :
    ∃ r, broadcast.compute_shape ndebug op [T, O] = Except.ok r ∧ r.type = T.type ∧
      r.lens = T.lens ∧ r.strides.length = T.rank ∧
      (∀ i, i < op.axis → index r.strides i = 0) ∧
      ∀ j, j < O.rank → index r.strides (op.axis + j) = index O.strides j := by
  unfold shape.rank at haxis hsize
  have hones : all_ones T.lens = false := by
    rw [Bool.eq_false_iff]
    exact fun h => hT ((all_ones_iff T.lens).1 h)
  have hassert : O.lens.length ≤ u64.sub T.lens.length op.axis :=
    broadcast_assert_holds _ _ _ (le_of_eq haxis) hsize
  have hequal : std_equal O.lens T.lens op.axis = true := by
    rw [std_equal_iff O.lens T.lens op.axis (le_of_eq haxis), ← hsuffix, List.take_length]
  refine ⟨{ type := T.type, lens := T.lens,
            strides := std_copy O.strides (List.replicate T.lens.length 0) op.axis },
    ?_, rfl, rfl, ?_, ?_, ?_⟩
  · rw [broadcast_compute_shape_pair]
    simp [hones, c_assert, hassert, hequal, Except.bind]
  · simp [std_copy, shape.rank]
  · intro i hi
    show index (std_copy O.strides (List.replicate T.lens.length 0) op.axis) i = 0
    rw [index_std_copy _ _ _ _ (by simp; omega), if_neg (by omega)]
    simp [index]
  · intro j hj
    unfold shape.rank at hj
    show index (std_copy O.strides (List.replicate T.lens.length 0) op.axis) (op.axis + j) = _
    rw [index_std_copy _ _ _ _ (by simp; omega), if_pos (by omega)]
    congr 1
    omega

/-- C12 at a concrete input: a bias `[3,4]` with strides `[4,1]` broadcast into
`[2,3,4]` at axis 1. -/
theorem broadcast_match_witness :
    ∃ r, broadcast.compute_shape false ⟨1⟩
          [shape.standard type_t.float_type [2, 3, 4],
            shape.standard type_t.float_type [3, 4]] = Except.ok r ∧
      r.type = type_t.float_type ∧ r.lens = [2, 3, 4] ∧ r.strides.length = 3 ∧
      (∀ i, i < 1 → index r.strides i = 0) ∧
      ∀ j, j < 2 → index r.strides (1 + j) = index [4, 1] j :=
  broadcast_match false ⟨1⟩ (shape.standard type_t.float_type [2, 3, 4])
    (shape.standard type_t.float_type [3, 4]) (by decide) (by decide) (by decide) (by decide)
    (by decide)

/-- C13 (amended): for inputs `[T, O]` and an axis with `axis + rank O ≤ rank T`,
if `T` is not fully degenerate and `O.lens` differs from the segment
`T.lens[axis], …, T.lens[axis + rank O - 1]`, then `broadcast::compute_shape`
fails, in either build flavour, with "when broadcasting success sizes must
match". -/
theorem broadcast_mismatch (ndebug : Bool) (op : broadcast) (T O : shape)
    (hT : ¬ ∀ l ∈ T.lens, l = 1) (hfit : op.axis + O.rank ≤ T.rank)
    (hsize : T.rank < u64.modulus)
    (hne : O.lens ≠ (T.lens.drop op.axis).take O.rank) :
    broadcast.compute_shape ndebug op [T, O] =
      MIGRAPH_THROW 488 "when broadcasting success sizes must match" := by
  unfold shape.rank at hfit hsize hne
  have hones : all_ones T.lens = false := by
    rw [Bool.eq_false_iff]
    exact fun h => hT ((all_ones_iff T.lens).1 h)
  have hassert : O.lens.length ≤ u64.sub T.lens.length op.axis :=
    broadcast_assert_holds _ _ _ hfit hsize
  have hequal : std_equal O.lens T.lens op.axis = false := by
    rw [Bool.eq_false_iff]
    exact fun h => hne ((std_equal_iff O.lens T.lens op.axis hfit).1 h)
  rw [broadcast_compute_shape_pair]
  simp [hones, c_assert, hassert, hequal, Except.bind]

/-- C13 at a concrete input: `[3,5]` against the segment `[3,4]` of `[2,3,4]` at
axis 1. -/
theorem broadcast_mismatch_witness :
    broadcast.compute_shape true ⟨1⟩
        [shape.standard type_t.float_type [2, 3, 4], shape.standard type_t.float_type [3, 5]] =
      MIGRAPH_THROW 488 "when broadcasting success sizes must match" :=
  broadcast_mismatch true ⟨1⟩ (shape.standard type_t.float_type [2, 3, 4])
    (shape.standard type_t.float_type [3, 5]) (by decide) (by decide) (by decide) (by decide)

/-- C13 as stated fails: for the target `[2,3,4]`, the operand `[2,3]` and axis
0 the operand is not fully degenerate and its lens differ from the suffix
`[2,3,4]` of the target lens, yet the call succeeds (in both build flavours) and
returns lens `[2,3,4]` with strides `[3,1,0]`: only as many target lengths as
the operand has are compared. -/
theorem broadcast_mismatch_counterexample :
    (0 ≤ (shape.standard type_t.float_type [2, 3, 4]).rank ∧
      ¬ (∀ l ∈ (shape.standard type_t.float_type [2, 3]).lens, l = 1) ∧
      (shape.standard type_t.float_type [2, 3]).lens ≠
        (shape.standard type_t.float_type [2, 3, 4]).lens.drop 0) ∧
    broadcast.compute_shape true ⟨0⟩
        [shape.standard type_t.float_type [2, 3, 4], shape.standard type_t.float_type [2, 3]] =
      Except.ok ⟨type_t.float_type, [2, 3, 4], [3, 1, 0]⟩ ∧
    broadcast.compute_shape false ⟨0⟩
        [shape.standard type_t.float_type [2, 3, 4], shape.standard type_t.float_type [2, 3]] =
      Except.ok ⟨type_t.float_type, [2, 3, 4], [3, 1, 0]⟩ :=
  ⟨⟨by decide, by decide, by decide⟩, by rfl, by rfl⟩

/-- C14 (amended): the degenerate case of `broadcast::compute_shape` is that of
the target.  For every target shape `T` all of whose lengths are 1 and every
operand shape `O`, `broadcast{axis}.compute_shape([T, O])` succeeds when
`axis = 0`, returning `T.lens` with all strides 0, and fails for every
`axis ≠ 0` with "when broadcasting tensor of size 1, axis should be 0", in
either build flavour. -/
theorem broadcast_degenerate_target (ndebug : Bool) (op : broadcast) (T O : shape)
    (hT : ∀ l ∈ T.lens, l = 1) :
    (op.axis = 0 → broadcast.compute_shape ndebug op [T, O] =
      Except.ok ⟨T.type, T.lens, List.replicate T.lens.length 0⟩) ∧
    (op.axis ≠ 0 → broadcast.compute_shape ndebug op [T, O] =
      MIGRAPH_THROW 481 "when broadcasting tensor of size 1, axis should be 0") := by
  have hones : all_ones T.lens = true := (all_ones_iff T.lens).2 hT
  rw [broadcast_compute_shape_pair]
  constructor
  · intro h
    simp [hones, h]
  · intro h
    simp [hones, h]

/-- C14 at a concrete input: the operand `[1]` and the target `[1,1]` at axis 0
and at axis 1. -/
theorem broadcast_degenerate_target_witness :
    broadcast.compute_shape false ⟨0⟩
        [shape.standard type_t.float_type [1, 1], shape.standard type_t.float_type [1]] =
      Except.ok ⟨type_t.float_type, [1, 1], [0, 0]⟩ ∧
    broadcast.compute_shape false ⟨1⟩
        [shape.standard type_t.float_type [1, 1], shape.standard type_t.float_type [1]] =
      MIGRAPH_THROW 481 "when broadcasting tensor of size 1, axis should be 0" :=
  ⟨(broadcast_degenerate_target false ⟨0⟩ (shape.standard type_t.float_type [1, 1])
      (shape.standard type_t.float_type [1]) (by decide)).1 rfl,
    (broadcast_degenerate_target false ⟨1⟩ (shape.standard type_t.float_type [1, 1])
      (shape.standard type_t.float_type [1]) (by decide)).2 (by decide)⟩

/-- C14 as stated fails in both directions: the operand `[1]` has all lengths 1,
yet broadcast into the target `[2,3]` at axis 0 it is refused with "when
broadcasting success sizes must match", and broadcast into the target `[2,1]`
at axis 1 it is accepted, in both build flavours. -/
theorem broadcast_degenerate_target_counterexample :
    (∀ l ∈ (shape.standard type_t.float_type [1]).lens, l = 1) ∧
    (∀ ndebug : Bool, broadcast.compute_shape ndebug ⟨0⟩
        [shape.standard type_t.float_type [2, 3], shape.standard type_t.float_type [1]] =
      MIGRAPH_THROW 488 "when broadcasting success sizes must match") ∧
    ∀ ndebug : Bool, broadcast.compute_shape ndebug ⟨1⟩
        [shape.standard type_t.float_type [2, 1], shape.standard type_t.float_type [1]] =
      Except.ok ⟨type_t.float_type, [2, 1], [0, 1]⟩ := by
  refine ⟨by decide, ?_, ?_⟩
  · intro ndebug
    cases ndebug <;> rfl
  · intro ndebug
    cases ndebug <;> rfl

/-! ### Floating-point rounding, any precision -/

/-- A natural number up to `2 ^ prec` is a floating-point number of precision
`prec`. -/
theorem fp_round_natCast_prec (prec : Nat) (hprec : 1 ≤ prec) (n : Nat) (h : n ≤ 2 ^ prec) :
    fp_round prec (n : ℚ) = n := by
  rcases Nat.lt_or_ge n (2 ^ prec) with hlt | hge
  · have := fp_round_representable prec n 0 hlt
    simpa using this
  · have hn : n = 2 ^ prec := le_antisymm h hge
    have h1 : 1 < 2 ^ prec := Nat.one_lt_two_pow (by omega)
    have := fp_round_representable prec 1 prec h1
    rw [hn]
    simp only [Nat.cast_one, one_mul, zpow_natCast] at this
    push_cast
    exact this

/-- Division of an integer below `2 ^ prec` by a positive integer in precision
`prec`, followed by `std::ceil`, gives the ceiling of the exact quotient. -/
theorem ceil_fp_round_div_prec (prec : Nat) (hprec : 1 ≤ prec) (a s : Nat) (hs : 1 ≤ s)
    (ha : a < 2 ^ prec) : ⌈fp_round prec ((a : ℚ) / s)⌉ = ⌈(a : ℚ) / s⌉ := by
  rcases Nat.eq_zero_or_pos a with h0 | hapos
  · subst h0; simp [fp_round]
  have hsq : (0 : ℚ) < (s : ℚ) := by exact_mod_cast hs
  have haq : (0 : ℚ) < (a : ℚ) := by exact_mod_cast hapos
  have hx : (0 : ℚ) < (a : ℚ) / s := div_pos haq hsq
  have hxa : (a : ℚ) / s ≤ a := div_le_self (le_of_lt haq) (by exact_mod_cast hs)
  generalize hxdef : (a : ℚ) / s = x at hx hxa
  have hsx : (s : ℚ) * x = a := by rw [← hxdef]; field_simp
  have hu := fp_ulp_pos prec x
  have hlow : ((2 : ℕ) : ℚ) ^ Int.log 2 x ≤ x := Int.zpow_log_le_self (by norm_num) hx
  simp only [Nat.cast_ofNat] at hlow
  have ha2 : (a : ℚ) < (2 : ℚ) ^ prec := by exact_mod_cast ha
  have hlt : x < ((2 : ℕ) : ℚ) ^ ((prec : ℕ) : ℤ) := by
    rw [zpow_natCast, Nat.cast_ofNat]
    exact lt_of_le_of_lt hxa ha2
  have he : Int.log 2 x < prec := (Int.lt_zpow_iff_log_lt (by norm_num) hx).1 hlt
  obtain ⟨t, ht⟩ : ∃ t : ℕ, (t : ℤ) = (prec : ℤ) - 1 - Int.log 2 x :=
    ⟨((prec : ℤ) - 1 - Int.log 2 x).toNat, by omega⟩
  generalize hudef : (2 : ℚ) ^ (Int.log 2 x - ((prec : Int) - 1)) = u at hu
  have huU : u * (2 : ℚ) ^ t = 1 := by
    rw [← hudef, ← zpow_natCast, ← zpow_add₀ (by norm_num : (2 : ℚ) ≠ 0), ht]
    simp
  have hU : (0 : ℚ) < (2 : ℚ) ^ t := pow_pos (by norm_num) _
  have hdiv : ∀ y : ℚ, y / u = y * (2 : ℚ) ^ t := by
    intro y
    rw [div_eq_iff (ne_of_gt hu), mul_assoc, mul_comm ((2 : ℚ) ^ t), huU, mul_one]
  have hP : (0 : ℚ) < (2 : ℚ) ^ (prec - 1) := pow_pos (by norm_num) _
  have h2e : (2 : ℚ) ^ Int.log 2 x * (2 : ℚ) ^ t = (2 : ℚ) ^ (prec - 1) := by
    rw [← zpow_natCast, ← zpow_add₀ (by norm_num : (2 : ℚ) ≠ 0), ht, ← zpow_natCast]
    congr 1
    omega
  have hpow : (2 : ℚ) ^ prec = 2 * (2 : ℚ) ^ (prec - 1) := by
    have : prec = (prec - 1) + 1 := by omega
    conv_lhs => rw [this]
    rw [pow_succ]; ring
  have hs2t : (s : ℚ) < 2 * (2 : ℚ) ^ t := by
    have h1 : (s : ℚ) * (2 : ℚ) ^ Int.log 2 x ≤ a := by
      rw [← hsx]; exact mul_le_mul_of_nonneg_left hlow (le_of_lt hsq)
    have h3 : (s : ℚ) * (2 : ℚ) ^ (prec - 1) < 2 * (2 : ℚ) ^ t * (2 : ℚ) ^ (prec - 1) := by
      calc (s : ℚ) * (2 : ℚ) ^ (prec - 1)
          = (s : ℚ) * (2 : ℚ) ^ Int.log 2 x * (2 : ℚ) ^ t := by rw [mul_assoc, h2e]
        _ ≤ (a : ℚ) * (2 : ℚ) ^ t := mul_le_mul_of_nonneg_right h1 (le_of_lt hU)
        _ < (2 : ℚ) ^ prec * (2 : ℚ) ^ t := mul_lt_mul_of_pos_right ha2 hU
        _ = 2 * (2 : ℚ) ^ t * (2 : ℚ) ^ (prec - 1) := by rw [hpow]; ring
    exact lt_of_mul_lt_mul_right h3 (le_of_lt hP)
  have hn1 : ((⌈x⌉ : ℤ) : ℚ) - 1 < x := by
    have := Int.ceil_lt_add_one x
    linarith
  have hn2 : x ≤ ((⌈x⌉ : ℤ) : ℚ) := Int.le_ceil x
  have hgap : ((⌈x⌉ : ℤ) : ℚ) - 1 + 1 / s ≤ x := by
    have h1 : ((⌈x⌉ - 1 : ℤ) : ℚ) * s < a := by
      rw [← hsx]; push_cast; nlinarith
    have h2 : (⌈x⌉ - 1) * (s : ℤ) < (a : ℤ) := by exact_mod_cast h1
    have h3 : (⌈x⌉ - 1) * (s : ℤ) + 1 ≤ (a : ℤ) := by omega
    have h4 : ((⌈x⌉ : ℤ) : ℚ) * s - s + 1 ≤ a := by
      have : (((⌈x⌉ - 1) * (s : ℤ) + 1 : ℤ) : ℚ) ≤ ((a : ℤ) : ℚ) := by exact_mod_cast h3
      push_cast at this
      linarith
    rw [← hxdef, le_div_iff₀ hsq]
    have : (((⌈x⌉ : ℤ) : ℚ) - 1 + 1 / s) * s = ((⌈x⌉ : ℤ) : ℚ) * s - s + 1 := by
      field_simp
      ring
    rw [hxdef, this]
    exact h4
  have hfp : fp_round prec x = (round_half_even (x * (2 : ℚ) ^ t) : ℚ) * u := by
    unfold fp_round
    rw [if_neg (not_le.2 hx), hudef, hdiv]
  rw [Int.ceil_eq_iff, hfp]
  constructor
  · have hm : (((⌈x⌉ - 1) * 2 ^ t : ℤ) : ℚ) + 1 / 2 < x * (2 : ℚ) ^ t := by
      push_cast
      have h1 : (1 : ℚ) / 2 < 1 / s * (2 : ℚ) ^ t := by
        rw [one_div_mul_eq_div, lt_div_iff₀ hsq]
        linarith
      nlinarith
    have hr := round_half_even_gt _ _ hm
    have hr2 : (((⌈x⌉ - 1) * 2 ^ t + 1 : ℤ) : ℚ) ≤ (round_half_even (x * (2 : ℚ) ^ t) : ℚ) := by
      exact_mod_cast hr
    push_cast at hr2
    have : (((⌈x⌉ : ℤ) : ℚ) - 1) * 2 ^ t * u + u ≤
        (round_half_even (x * (2 : ℚ) ^ t) : ℚ) * u := by
      have := mul_le_mul_of_nonneg_right hr2 (le_of_lt hu)
      linarith
    have h5 : (((⌈x⌉ : ℤ) : ℚ) - 1) * 2 ^ t * u = ((⌈x⌉ : ℤ) : ℚ) - 1 := by
      rw [mul_assoc, mul_comm ((2 : ℚ) ^ t), huU, mul_one]
    linarith
  · have hm : x * (2 : ℚ) ^ t ≤ ((⌈x⌉ * 2 ^ t : ℤ) : ℚ) := by
      push_cast
      exact mul_le_mul_of_nonneg_right hn2 (le_of_lt hU)
    have hr := round_half_even_le _ _ hm
    have hr2 : (round_half_even (x * (2 : ℚ) ^ t) : ℚ) ≤ ((⌈x⌉ * 2 ^ t : ℤ) : ℚ) := by
      exact_mod_cast hr
    push_cast at hr2
    have := mul_le_mul_of_nonneg_right hr2 (le_of_lt hu)
    have h5 : ((⌈x⌉ : ℤ) : ℚ) * 2 ^ t * u = ((⌈x⌉ : ℤ) : ℚ) := by
      rw [mul_assoc, mul_comm ((2 : ℚ) ^ t), huU, mul_one]
    linarith

/-- A value strictly between 0 and 1 is rounded into `(0, 1]` in every
precision, so that `std::ceil` of the rounded value is 1. -/
theorem ceil_fp_round_of_lt_one_prec (prec : Nat) (hprec : 1 ≤ prec) (x : ℚ) (h0 : 0 < x)
    (h1 : x < 1) : ⌈fp_round prec x⌉ = 1 := by
  have hge := fp_round_ge prec hprec x h0
  have hle := fp_round_le prec x h0
  have hpos : (0 : ℚ) < (2 : ℚ) ^ Int.log 2 x := zpow_pos (by norm_num) _
  have hlog : Int.log 2 x < 0 := by
    apply (Int.lt_zpow_iff_log_lt (by norm_num) h0).1
    simpa using h1
  have hone : (2 : ℚ) ^ (Int.log 2 x + 1) ≤ 1 :=
    zpow_le_one_of_nonpos₀ (by norm_num) (by omega)
  rw [Int.ceil_eq_iff]
  constructor
  · simp only [Int.cast_one, sub_self]
    linarith
  · simp only [Int.cast_one]
    linarith

/-- Converting two integers to precision `prec`, dividing and applying
`std::ceil` gives the ceiling of the exact quotient when the numerator is below
`2 ^ prec` and the denominator is positive. -/
theorem ceil_fp_quotient_exact (prec : Nat) (hprec : 1 ≤ prec) (a s : Nat) (hs : 1 ≤ s)
    (ha : a < 2 ^ prec) :
    ⌈fp_round prec (fp_round prec (a : ℚ) / fp_round prec (s : ℚ))⌉ = ⌈(a : ℚ) / s⌉ := by
  have hsq : (0 : ℚ) < (s : ℚ) := by exact_mod_cast hs
  rw [fp_round_natCast_prec prec hprec a (le_of_lt ha)]
  rcases Nat.lt_or_ge s (2 ^ prec) with hlt | hge
  · rw [fp_round_natCast_prec prec hprec s (le_of_lt hlt)]
    exact ceil_fp_round_div_prec prec hprec a s hs ha
  · rcases Nat.eq_zero_or_pos a with h0 | hapos
    · subst h0; simp [fp_round]
    have haq : (0 : ℚ) < (a : ℚ) := by exact_mod_cast hapos
    have has : (a : ℚ) < (s : ℚ) := by exact_mod_cast lt_of_lt_of_le ha hge
    have ha2 : (a : ℚ) < (2 : ℚ) ^ prec := by exact_mod_cast ha
    have hfs : (2 : ℚ) ^ prec ≤ fp_round prec (s : ℚ) := by
      have h1 := fp_round_ge prec hprec (s : ℚ) hsq
      have h2 : (prec : ℤ) ≤ Int.log 2 (s : ℚ) := by
        apply (Int.zpow_le_iff_le_log (by norm_num) hsq).1
        have : ((2 ^ prec : ℕ) : ℚ) ≤ (s : ℚ) := by exact_mod_cast hge
        rw [Nat.cast_ofNat, zpow_natCast]
        calc (2 : ℚ) ^ prec = ((2 ^ prec : ℕ) : ℚ) := by push_cast; rfl
          _ ≤ (s : ℚ) := this
      have h3 : (2 : ℚ) ^ (prec : ℤ) ≤ (2 : ℚ) ^ Int.log 2 (s : ℚ) :=
        zpow_le_zpow_right₀ (by norm_num) h2
      rw [zpow_natCast] at h3
      linarith
    have hfspos : (0 : ℚ) < fp_round prec (s : ℚ) := lt_of_lt_of_le (lt_trans haq ha2) hfs
    have hx0 : 0 < (a : ℚ) / fp_round prec (s : ℚ) := div_pos haq hfspos
    have hx1 : (a : ℚ) / fp_round prec (s : ℚ) < 1 := by
      rw [div_lt_one hfspos]; linarith
    rw [ceil_fp_round_of_lt_one_prec prec hprec _ hx0 hx1, eq_comm, Int.ceil_eq_iff]
    constructor
    · simp only [Int.cast_one, sub_self]
      exact div_pos haq hsq
    · simp only [Int.cast_one]
      rw [div_le_one hsq]
      exact le_of_lt has

/-- Below `2 ^ 53` the double-precision expression
`static_cast<std::size_t>(std::ceil(static_cast<double>(a) / s))` of
`convolution::compute_shape` has the exact value `⌈a / s⌉`. -/
theorem ceil_div_double_exact (a s : Nat) (hs : 1 ≤ s) (ha : a < 2 ^ 53) :
    fp_ieee.ceil_div_double a s = ⌈(a : ℚ) / s⌉.toNat := by
  show to_size_t ⌈fp_round 53 (fp_round 53 (a : ℚ) / fp_round 53 (s : ℚ))⌉ = _
  rw [ceil_fp_quotient_exact 53 (by norm_num) a s hs ha]
  have hsq : (0 : ℚ) < (s : ℚ) := by exact_mod_cast hs
  have hc0 : 0 ≤ ⌈(a : ℚ) / s⌉ := Int.ceil_nonneg (div_nonneg (Nat.cast_nonneg a) (le_of_lt hsq))
  have hca : ⌈(a : ℚ) / s⌉ ≤ (a : ℤ) := by
    rw [Int.ceil_le]
    push_cast
    exact div_le_self (Nat.cast_nonneg a) (by exact_mod_cast hs)
  exact to_size_t_of_nonneg _ hc0 (by omega)

/-- A tie is rounded to the even neighbour: `2 ^ 53 + 1` becomes `2 ^ 53` in
double precision. -/
theorem fp_round_tie_double : fp_round 53 (9007199254740993 : ℚ) = 9007199254740992 := by
  have hlog : Int.log 2 (9007199254740993 : ℚ) = 53 := by
    have h1 : Int.log 2 ((9007199254740993 : ℕ) : ℚ) = Nat.log 2 9007199254740993 :=
      Int.log_natCast 2 9007199254740993
    have h2 : Nat.log 2 9007199254740993 = 53 := by
      rw [Nat.log_eq_iff (by norm_num)]
      norm_num
    rw [h2] at h1
    exact_mod_cast h1
  have hfloor : ⌊(9007199254740993 : ℚ) / 2⌋ = 4503599627370496 := by
    rw [Int.floor_eq_iff]
    norm_num
  unfold fp_round
  rw [if_neg (by norm_num), hlog]
  have hu : (2 : ℚ) ^ ((53 : ℤ) - (((53 : ℕ) : ℤ) - 1)) = 2 := by norm_num
  rw [hu]
  unfold round_half_even
  rw [hfloor]
  norm_num

/-- The double-precision expression of `convolution::compute_shape` at
`2 ^ 53 + 1` and stride 1: the conversion of the numerator rounds down. -/
theorem ceil_div_double_tie : fp_ieee.ceil_div_double 9007199254740993 1 = 9007199254740992 := by
  show to_size_t ⌈fp_round 53 (fp_round 53 ((9007199254740993 : ℕ) : ℚ) /
    fp_round 53 ((1 : ℕ) : ℚ))⌉ = 9007199254740992
  have h1 : fp_round 53 ((1 : ℕ) : ℚ) = 1 := by
    have := fp_round_natCast_prec 53 (by norm_num) 1 (by norm_num)
    simpa using this
  have h2 : fp_round 53 ((9007199254740993 : ℕ) : ℚ) = 9007199254740992 := by
    have := fp_round_tie_double
    simpa using this
  have h3 : fp_round 53 (9007199254740992 : ℚ) = 9007199254740992 := by
    have := fp_round_natCast_prec 53 (by norm_num) 9007199254740992 (by norm_num)
    simpa using this
  rw [h1, h2, div_one, h3]
  have h4 : ⌈(9007199254740992 : ℚ)⌉ = 9007199254740992 := by
    rw [Int.ceil_eq_iff]; norm_num
  rw [h4]
  decide

/-! ### convolution, modes `same` and `valid`, and input validation -/

/-- The result of `convolution::compute_shape` in mode `same`. -/
theorem convolution_same_mode (fp : fp_model) (op : convolution) (x w : shape)
    (ht : x.type = w.type) (hx : x.lens.length = 4) (hw : w.lens.length = 4)
    (hmode : op.padding_mode = padding_mode_t.same) :
    convolution.compute_shape fp op [x, w] =
      Except.ok (shape.standard x.type
        [index x.lens 0, index w.lens 0,
          fp.ceil_div_double (index x.lens 2) op.stride.1,
          fp.ceil_div_double (index x.lens 3) op.stride.2]) := by
  rw [convolution_checks_pass fp op x w ht hx hw, hmode]
  rfl

/-- The result of `convolution::compute_shape` in mode `valid`. -/
theorem convolution_valid_mode (fp : fp_model) (op : convolution) (x w : shape)
    (ht : x.type = w.type) (hx : x.lens.length = 4) (hw : w.lens.length = 4)
    (hmode : op.padding_mode = padding_mode_t.valid) :
    convolution.compute_shape fp op [x, w] =
      Except.ok (shape.standard x.type
        [index x.lens 0, index w.lens 0,
          fp.ceil_div_double (u64.add (u64.sub (index x.lens 2) (index w.lens 2)) 1)
            op.stride.1,
          fp.ceil_div_double (u64.add (u64.sub (index x.lens 3) (index w.lens 3)) 1)
            op.stride.2]) := by
  rw [convolution_checks_pass fp op x w ht hx hw, hmode]
  rfl

/-- The numerator `in - k + 1` of mode `valid` does not wrap when `k ≤ in`. -/
theorem valid_numerator (inp k : Nat) (hk : k ≤ inp) (hin : inp < 2 ^ 64)
    (hb : inp - k + 1 < 2 ^ 53) : u64.add (u64.sub inp k) 1 = inp - k + 1 := by
  unfold u64.add u64.sub u64.modulus
  omega

/-- C16 (amended): for two rank-4 inputs of the same element type and strides
`s ≥ 1`, the floating-point expressions evaluated in IEEE double precision: in
mode `same`, when the input lengths are below `2 ^ 53`, the spatial output
lengths are `⌈in / s⌉`, whatever the kernel size, padding and dilation; in mode
`valid` with `k ≤ in`, when `in < 2 ^ 64` and the numerator `in - k + 1` is below
`2 ^ 53`, they are `⌈(in - k + 1) / s⌉`, whatever the padding and dilation; the
quotients are exact. -/
theorem convolution_same_valid_shape (op : convolution) (x w : shape)
    (ht : x.type = w.type) (hx : x.rank = 4) (hw : w.rank = 4)
    (hs0 : 1 ≤ op.stride.1) (hs1 : 1 ≤ op.stride.2) :
    (op.padding_mode = padding_mode_t.same →
      index x.lens 2 < 2 ^ 53 → index x.lens 3 < 2 ^ 53 →
      convolution.compute_shape fp_ieee op [x, w] =
        Except.ok (shape.standard x.type
          [index x.lens 0, index w.lens 0,
            ⌈((index x.lens 2 : ℕ) : ℚ) / (op.stride.1 : ℚ)⌉.toNat,
            ⌈((index x.lens 3 : ℕ) : ℚ) / (op.stride.2 : ℚ)⌉.toNat])) ∧
    (op.padding_mode = padding_mode_t.valid →
      index w.lens 2 ≤ index x.lens 2 → index w.lens 3 ≤ index x.lens 3 →
      index x.lens 2 < 2 ^ 64 → index x.lens 3 < 2 ^ 64 →
      index x.lens 2 - index w.lens 2 + 1 < 2 ^ 53 →
      index x.lens 3 - index w.lens 3 + 1 < 2 ^ 53 →
      convolution.compute_shape fp_ieee op [x, w] =
        Except.ok (shape.standard x.type
          [index x.lens 0, index w.lens 0,
            ⌈((index x.lens 2 - index w.lens 2 + 1 : ℕ) : ℚ) / (op.stride.1 : ℚ)⌉.toNat,
            ⌈((index x.lens 3 - index w.lens 3 + 1 : ℕ) : ℚ) / (op.stride.2 : ℚ)⌉.toNat])) := by
  constructor
  · intro hmode h0 h1
    rw [convolution_same_mode fp_ieee op x w ht hx hw hmode,
      ceil_div_double_exact _ _ hs0 h0, ceil_div_double_exact _ _ hs1 h1]
  · intro hmode hk0 hk1 hi0 hi1 hb0 hb1
    rw [convolution_valid_mode fp_ieee op x w ht hx hw hmode,
      valid_numerator _ _ hk0 hi0 hb0, valid_numerator _ _ hk1 hi1 hb1,
      ceil_div_double_exact _ _ hs0 hb0, ceil_div_double_exact _ _ hs1 hb1]

/-- C16 at a concrete input: `[1,3,32,32]` convolved with `[8,3,3,3]` at stride
`{2,2}` gives `[1,8,16,16]` in mode `same` (for two different paddings and
dilations) and `[1,8,15,15]` in mode `valid`. -/
theorem convolution_same_valid_shape_witness :
    convolution.compute_shape fp_ieee ⟨(0, 0), (2, 2), (1, 1), padding_mode_t.same⟩
        [shape.standard type_t.float_type [1, 3, 32, 32],
          shape.standard type_t.float_type [8, 3, 3, 3]] =
      Except.ok (shape.standard type_t.float_type [1, 8, 16, 16]) ∧
    convolution.compute_shape fp_ieee ⟨(5, 7), (2, 2), (3, 2), padding_mode_t.same⟩
        [shape.standard type_t.float_type [1, 3, 32, 32],
          shape.standard type_t.float_type [8, 3, 3, 3]] =
      Except.ok (shape.standard type_t.float_type [1, 8, 16, 16]) ∧
    convolution.compute_shape fp_ieee ⟨(5, 7), (2, 2), (3, 2), padding_mode_t.valid⟩
        [shape.standard type_t.float_type [1, 3, 32, 32],
          shape.standard type_t.float_type [8, 3, 3, 3]] =
      Except.ok (shape.standard type_t.float_type [1, 8, 15, 15]) := by
  have hc16 : ⌈(32 : ℚ) / 2⌉ = 16 := by
    rw [Int.ceil_eq_iff]; norm_num
  have hc15 : ⌈(30 : ℚ) / 2⌉ = 15 := by
    rw [Int.ceil_eq_iff]; norm_num
  refine ⟨?_, ?_, ?_⟩
  · rw [(convolution_same_valid_shape ⟨(0, 0), (2, 2), (1, 1), padding_mode_t.same⟩
      (shape.standard type_t.float_type [1, 3, 32, 32])
      (shape.standard type_t.float_type [8, 3, 3, 3]) rfl rfl rfl (by decide) (by decide)).1
      rfl (by decide) (by decide)]
    simp [index, shape.standard, hc16]
  · rw [(convolution_same_valid_shape ⟨(5, 7), (2, 2), (3, 2), padding_mode_t.same⟩
      (shape.standard type_t.float_type [1, 3, 32, 32])
      (shape.standard type_t.float_type [8, 3, 3, 3]) rfl rfl rfl (by decide) (by decide)).1
      rfl (by decide) (by decide)]
    simp [index, shape.standard, hc16]
  · rw [(convolution_same_valid_shape ⟨(5, 7), (2, 2), (3, 2), padding_mode_t.valid⟩
      (shape.standard type_t.float_type [1, 3, 32, 32])
      (shape.standard type_t.float_type [8, 3, 3, 3]) rfl rfl rfl (by decide) (by decide)).2
      rfl (by decide) (by decide) (by decide) (by decide) (by decide) (by decide)]
    simp [index, shape.standard, hc15]

/-- C16 as stated fails once double precision rounds: in mode `same`, for the
input `[1,1,9007199254740993,1]`, the kernel `[1,1,1,1]` and stride `{1,1}`, the
exact value of `⌈in / s⌉` on the first spatial axis is `9007199254740993`, but
`compute_shape` returns `9007199254740992`: `2 ^ 53 + 1` is not a
double-precision number. -/
theorem convolution_same_valid_shape_counterexample :
    ⌈((9007199254740993 : ℕ) : ℚ) / ((1 : ℕ) : ℚ)⌉.toNat = 9007199254740993 ∧
    convolution.compute_shape fp_ieee ⟨(0, 0), (1, 1), (1, 1), padding_mode_t.same⟩
        [shape.standard type_t.float_type [1, 1, 9007199254740993, 1],
          shape.standard type_t.float_type [1, 1, 1, 1]] =
      Except.ok (shape.standard type_t.float_type [1, 1, 9007199254740992, 1]) ∧
    convolution.compute_shape fp_ieee ⟨(0, 0), (1, 1), (1, 1), padding_mode_t.same⟩
        [shape.standard type_t.float_type [1, 1, 9007199254740993, 1],
          shape.standard type_t.float_type [1, 1, 1, 1]] ≠
      Except.ok (shape.standard type_t.float_type [1, 1, 9007199254740993, 1]) := by
  have hcode : convolution.compute_shape fp_ieee
        ⟨(0, 0), (1, 1), (1, 1), padding_mode_t.same⟩
        [shape.standard type_t.float_type [1, 1, 9007199254740993, 1],
          shape.standard type_t.float_type [1, 1, 1, 1]] =
      Except.ok (shape.standard type_t.float_type [1, 1, 9007199254740992, 1]) := by
    rw [convolution_same_mode fp_ieee ⟨(0, 0), (1, 1), (1, 1), padding_mode_t.same⟩
      (shape.standard type_t.float_type [1, 1, 9007199254740993, 1])
      (shape.standard type_t.float_type [1, 1, 1, 1]) rfl rfl rfl rfl]
    have h1 : fp_ieee.ceil_div_double 1 1 = 1 := by
      rw [ceil_div_double_exact 1 1 (by decide) (by norm_num)]
      norm_num
    show Except.ok (shape.standard type_t.float_type
      [1, 1, fp_ieee.ceil_div_double 9007199254740993 1, fp_ieee.ceil_div_double 1 1]) = _
    rw [ceil_div_double_tie, h1]
  refine ⟨?_, hcode, ?_⟩
  · have hc : ⌈(9007199254740993 : ℚ)⌉ = 9007199254740993 := by
      rw [Int.ceil_eq_iff]; norm_num
    norm_num [hc]
    rfl
  · rw [hcode]
    intro h
    have h2 := congrArg (fun r => match r with
      | Except.ok t => index t.lens 2
      | Except.error _ => 0) h
    revert h2
    decide

/-- In each of the three padding modes `convolution::compute_shape` returns, on
two rank-4 inputs of the same element type, a standard shape of the first
input's type whose first two lengths are the batch size and the leading length
of the kernel. -/
theorem convolution_accepts (fp : fp_model) (op : convolution) (x w : shape)
    (hmode : op.padding_mode = padding_mode_t.default_ ∨
      op.padding_mode = padding_mode_t.same ∨ op.padding_mode = padding_mode_t.valid)
    (ht : x.type = w.type) (hx : x.lens.length = 4) (hw : w.lens.length = 4) :
    ∃ l2 l3, convolution.compute_shape fp op [x, w] =
      Except.ok (shape.standard x.type [index x.lens 0, index w.lens 0, l2, l3]) := by
  rcases hmode with h | h | h
  · exact ⟨_, _, by rw [convolution_checks_pass fp op x w ht hx hw, if_pos h]; rfl⟩
  · exact ⟨_, _, convolution_same_mode fp op x w ht hx hw h⟩
  · exact ⟨_, _, convolution_valid_mode fp op x w ht hx hw h⟩

/-- `convolution::compute_shape` fails in `same_type` on two inputs whose element
types differ. -/
theorem convolution_rejects_type (fp : fp_model) (op : convolution) (x w : shape)
    (h : x.type ≠ w.type) :
    convolution.compute_shape fp op [x, w] =
      MIGRAPH_THROW 62 "convolution: Types do not match" := by
  have ht : ¬ w.type = x.type := fun e => h e.symm
  simp [convolution.compute_shape, check_shapes.has, check_shapes.same_type,
    check_shapes.same, check_shapes.all_of, ht, bind, Except.bind, convolution.name,
    check_shapes.prefix_]
  rfl

/-- `convolution::compute_shape` fails in `same_ndims` on two inputs of the same
element type whose ranks differ. -/
theorem convolution_rejects_ndims (fp : fp_model) (op : convolution) (x w : shape)
    (ht : x.type = w.type) (h : x.rank ≠ w.rank) :
    convolution.compute_shape fp op [x, w] =
      MIGRAPH_THROW 76 "convolution: Dimensions do not match" := by
  unfold shape.rank at h
  have hr : ¬ w.lens.length = x.lens.length := fun e => h e.symm
  simp [convolution.compute_shape, check_shapes.has, check_shapes.same_type,
    check_shapes.same_ndims, check_shapes.same, check_shapes.all_of, ht, hr, bind,
    Except.bind, convolution.name, check_shapes.prefix_]
  rfl

/-- `convolution::compute_shape` fails in `only_dims(4)` on two inputs of the
same element type and the same rank, when that rank is not 4. -/
theorem convolution_rejects_rank (fp : fp_model) (op : convolution) (x w : shape)
    (ht : x.type = w.type) (hr : x.rank = w.rank) (h : x.rank ≠ 4) :
    convolution.compute_shape fp op [x, w] =
      MIGRAPH_THROW 47 ("convolution: Only " ++ toString 4 ++ "d supported") := by
  unfold shape.rank at h hr
  have h4 : ¬ w.lens.length = 4 := by rw [← hr]; exact h
  simp [convolution.compute_shape, check_shapes.has, check_shapes.same_type,
    check_shapes.same_ndims, check_shapes.only_dims, check_shapes.same, check_shapes.all_of,
    ht, hr, h4, bind, Except.bind, convolution.name, check_shapes.prefix_]
  rfl

/-- `convolution::compute_shape` fails in `has(2)` when the number of inputs is
not 2. -/
theorem convolution_arity (fp : fp_model) (op : convolution) (inputs : List shape)
    (h : inputs.length ≠ 2) :
    convolution.compute_shape fp op inputs =
      MIGRAPH_THROW 36 ("convolution: Wrong number of arguments: expected " ++ toString 2 ++
        " but given " ++ toString inputs.length) := by
  simp [convolution.compute_shape, check_shapes.has, h, bind, Except.bind, convolution.name,
    check_shapes.prefix_]
  rfl

/-- C15: input validation of `convolution::compute_shape`.  In each of the three
padding modes and for every parameter setting with strides at least 1, the call
fails if and only if the input list does not consist of exactly 2 shapes, or the
two element types differ, or the two ranks differ, or the rank is not 4; and on
every accepted input the result has the element type of the first input,
`lens[0] = input.lens[0]` and `lens[1] = weights.lens[0]`. -/
theorem convolution_validation (fp : fp_model) (op : convolution)
    (hmode : op.padding_mode = padding_mode_t.default_ ∨
      op.padding_mode = padding_mode_t.same ∨ op.padding_mode = padding_mode_t.valid)
    (_hs : 1 ≤ op.stride.1 ∧ 1 ≤ op.stride.2) :
    (∀ inputs : List shape,
      (∃ e, convolution.compute_shape fp op inputs = Except.error e) ↔
        (inputs.length ≠ 2 ∨
          ∃ x w, inputs = [x, w] ∧ (x.type ≠ w.type ∨ x.rank ≠ w.rank ∨ x.rank ≠ 4))) ∧
    ∀ (x w r : shape), convolution.compute_shape fp op [x, w] = Except.ok r →
      r.type = x.type ∧ index r.lens 0 = index x.lens 0 ∧
        index r.lens 1 = index w.lens 0 := by
  have hrej : ∀ x w : shape, (x.type ≠ w.type ∨ x.rank ≠ w.rank ∨ x.rank ≠ 4) →
      ∃ e, convolution.compute_shape fp op [x, w] = Except.error e := by
    intro x w h
    by_cases ht : x.type = w.type
    · by_cases hr : x.rank = w.rank
      · have h4 : x.rank ≠ 4 := by
          rcases h with h | h | h
          · exact absurd ht h
          · exact absurd hr h
          · exact h
        exact ⟨_, convolution_rejects_rank fp op x w ht hr h4⟩
      · exact ⟨_, convolution_rejects_ndims fp op x w ht hr⟩
    · exact ⟨_, convolution_rejects_type fp op x w ht⟩
  have hacc : ∀ x w : shape, ¬ (x.type ≠ w.type ∨ x.rank ≠ w.rank ∨ x.rank ≠ 4) →
      ∃ l2 l3, convolution.compute_shape fp op [x, w] =
        Except.ok (shape.standard x.type [index x.lens 0, index w.lens 0, l2, l3]) := by
    intro x w h
    simp only [not_or, not_not, shape.rank] at h
    obtain ⟨ht, hr, h4⟩ := h
    exact convolution_accepts fp op x w hmode ht h4 (by omega)
  constructor
  · intro inputs
    constructor
    · rintro ⟨e, he⟩
      by_cases hlen : inputs.length = 2
      · right
        match inputs, hlen, he with
        | [x, w], _, he =>
          refine ⟨x, w, rfl, ?_⟩
          by_contra hno
          obtain ⟨l2, l3, hok⟩ := hacc x w hno
          rw [hok] at he
          cases he
      · exact Or.inl hlen
    · rintro (hlen | ⟨x, w, rfl, h⟩)
      · exact ⟨_, convolution_arity fp op inputs hlen⟩
      · exact hrej x w h
  · intro x w r hr
    by_cases h : x.type ≠ w.type ∨ x.rank ≠ w.rank ∨ x.rank ≠ 4
    · obtain ⟨e, he⟩ := hrej x w h
      rw [he] at hr
      cases hr
    · obtain ⟨l2, l3, hok⟩ := hacc x w h
      rw [hok] at hr
      have hr2 : shape.standard x.type [index x.lens 0, index w.lens 0, l2, l3] = r := by
        injection hr
      subst hr2
      exact ⟨rfl, rfl, rfl⟩

/-- C15 at a concrete input, mode `same` with stride 2: `[1,3,32,32]` with
`[8,3,3,3]` is accepted, and a single input is refused. -/
theorem convolution_validation_witness :
    (¬ ∃ e, convolution.compute_shape fp_ieee ⟨(0, 0), (2, 2), (1, 1), padding_mode_t.same⟩
        [shape.standard type_t.float_type [1, 3, 32, 32],
          shape.standard type_t.float_type [8, 3, 3, 3]] = Except.error e) ∧
    ∃ e, convolution.compute_shape fp_ieee ⟨(0, 0), (2, 2), (1, 1), padding_mode_t.same⟩
        [shape.standard type_t.float_type [1, 3, 32, 32]] = Except.error e := by
  have h := (convolution_validation fp_ieee ⟨(0, 0), (2, 2), (1, 1), padding_mode_t.same⟩
    (Or.inr (Or.inl rfl)) (by decide)).1
  constructor
  · intro he
    rcases (h _).1 he with hlen | ⟨x, w, heq, hbad⟩
    · exact hlen rfl
    · injection heq with h1 h2
      injection h2 with h2 _
      subst h1 h2
      revert hbad
      decide
  · exact (h _).2 (Or.inl (by decide))

/-! ### Error messages of the validators -/

/-- C21 (amended): the message of a failed arity check.  For `convolution`,
`pooling`, `activation`, `transpose`, `contiguous`, `reshape`, `gemm` and
`outline`, whose validator is built with the operator, a call of
`compute_shape` with `m` inputs where `n ≠ m` are required raises an exception
whose text is the source-location tag, `": "`, the operator's `name()`, `": "`
and "Wrong number of arguments: expected `n` but given `m`".  For every operator
of the unary and of the binary family the validator is built without the
operator, and the text is the source-location tag, `": "` and "Wrong number of
arguments: expected `n` but given `m`", without a name. -/
theorem arity_error_message :
    (∀ (fp : fp_model) (op : convolution) (inputs : List shape), inputs.length ≠ 2 →
      convolution.compute_shape fp op inputs = Except.error (failure.exception
        (make_source_context FILE 36 ++ ": " ++
          (op.name ++ ": " ++ "Wrong number of arguments: expected " ++ toString 2 ++
            " but given " ++ toString inputs.length)))) ∧
    (∀ (ndebug : Bool) (fp : fp_model) (op : pooling) (inputs : List shape),
      inputs.length ≠ 1 →
      pooling.compute_shape ndebug fp op inputs = Except.error (failure.exception
        (make_source_context FILE 36 ++ ": " ++
          (op.name ++ ": " ++ "Wrong number of arguments: expected " ++ toString 1 ++
            " but given " ++ toString inputs.length)))) ∧
    (∀ (op : activation) (inputs : List shape), inputs.length ≠ 1 →
      activation.compute_shape op inputs = Except.error (failure.exception
        (make_source_context FILE 36 ++ ": " ++
          (op.name ++ ": " ++ "Wrong number of arguments: expected " ++ toString 1 ++
            " but given " ++ toString inputs.length)))) ∧
    (∀ (op : transpose) (inputs : List shape), inputs.length ≠ 1 →
      transpose.compute_shape op inputs = Except.error (failure.exception
        (make_source_context FILE 36 ++ ": " ++
          (op.name ++ ": " ++ "Wrong number of arguments: expected " ++ toString 1 ++
            " but given " ++ toString inputs.length)))) ∧
    (∀ (op : contiguous) (inputs : List shape), inputs.length ≠ 1 →
      contiguous.compute_shape op inputs = Except.error (failure.exception
        (make_source_context FILE 36 ++ ": " ++
          (op.name ++ ": " ++ "Wrong number of arguments: expected " ++ toString 1 ++
            " but given " ++ toString inputs.length)))) ∧
    (∀ (op : reshape) (inputs : List shape), inputs.length ≠ 1 →
      reshape.compute_shape op inputs = Except.error (failure.exception
        (make_source_context FILE 36 ++ ": " ++
          (op.name ++ ": " ++ "Wrong number of arguments: expected " ++ toString 1 ++
            " but given " ++ toString inputs.length)))) ∧
    (∀ (op : gemm) (inputs : List shape), inputs.length ≠ 2 →
      gemm.compute_shape op inputs = Except.error (failure.exception
        (make_source_context FILE 36 ++ ": " ++
          (op.name ++ ": " ++ "Wrong number of arguments: expected " ++ toString 2 ++
            " but given " ++ toString inputs.length)))) ∧
    (∀ (op : outline) (inputs : List shape), inputs.length ≠ 0 →
      outline.compute_shape op inputs = Except.error (failure.exception
        (make_source_context FILE 36 ++ ": " ++
          (op.name ++ ": " ++ "Wrong number of arguments: expected " ++ toString 0 ++
            " but given " ++ toString inputs.length)))) ∧
    (∀ (op : unary_family) (inputs : List shape), inputs.length ≠ 1 →
      unary_family.compute_shape op inputs = Except.error (failure.exception
        (make_source_context FILE 36 ++ ": " ++
          ("Wrong number of arguments: expected " ++ toString 1 ++
            " but given " ++ toString inputs.length)))) ∧
    ∀ (op : binary_family) (inputs : List shape), inputs.length ≠ 2 →
      binary_family.compute_shape op inputs = Except.error (failure.exception
        (make_source_context FILE 36 ++ ": " ++
          ("Wrong number of arguments: expected " ++ toString 2 ++
            " but given " ++ toString inputs.length))) := by
  refine ⟨?_, ?_, ?_, ?_, ?_, ?_, ?_, ?_, ?_, ?_⟩
  · intro fp op inputs h
    simp [convolution.compute_shape, check_shapes.has, h, bind, Except.bind, convolution.name,
      check_shapes.prefix_, MIGRAPH_THROW, make_exception]
    rfl
  · intro ndebug fp op inputs h
    simp [pooling.compute_shape, check_shapes.has, h, bind, Except.bind, pooling.name,
      check_shapes.prefix_, MIGRAPH_THROW, make_exception]
    rfl
  · intro op inputs h
    simp [activation.compute_shape, check_shapes.has, h, bind, Except.bind, activation.name,
      check_shapes.prefix_, MIGRAPH_THROW, make_exception]
    rfl
  · intro op inputs h
    simp [transpose.compute_shape, check_shapes.has, h, bind, Except.bind, transpose.name,
      check_shapes.prefix_, MIGRAPH_THROW, make_exception]
    rfl
  · intro op inputs h
    simp [contiguous.compute_shape, check_shapes.has, h, bind, Except.bind, contiguous.name,
      check_shapes.prefix_, MIGRAPH_THROW, make_exception]
    rfl
  · intro op inputs h
    simp [reshape.compute_shape, check_shapes.has, h, bind, Except.bind, reshape.name,
      check_shapes.prefix_, MIGRAPH_THROW, make_exception]
    rfl
  · intro op inputs h
    simp [gemm.compute_shape, check_shapes.has, h, bind, Except.bind, gemm.name,
      check_shapes.prefix_, MIGRAPH_THROW, make_exception]
    rfl
  · intro op inputs h
    simp [outline.compute_shape, check_shapes.has, h, bind, Except.bind, outline.name,
      check_shapes.prefix_, MIGRAPH_THROW, make_exception]
    rfl
  · intro op inputs h
    simp [unary_family.compute_shape, unary.compute_shape, check_shapes.has, h, bind,
      Except.bind, check_shapes.prefix_, MIGRAPH_THROW, make_exception]
    rfl
  · intro op inputs h
    simp [binary_family.compute_shape, binary.compute_shape, check_shapes.has, h, bind,
      Except.bind, check_shapes.prefix_, MIGRAPH_THROW, make_exception]
    rfl

/-- C21 at concrete inputs: `gemm` called with one input and `outline` called
with one input. -/
theorem arity_error_message_witness :
    gemm.compute_shape {} [shape.standard type_t.float_type [2, 3]] =
      Except.error (failure.exception
        "migraph/operators.hpp:36: gemm: Wrong number of arguments: expected 2 but given 1") ∧
    outline.compute_shape ⟨shape.standard type_t.float_type [2, 3]⟩
        [shape.standard type_t.float_type [2, 3]] =
      Except.error (failure.exception
        "migraph/operators.hpp:36: outline: Wrong number of arguments: expected 0 but given 1") := by
  constructor
  · rw [arity_error_message.2.2.2.2.2.2.1 {} [shape.standard type_t.float_type [2, 3]]
      (by decide)]
    rfl
  · rw [arity_error_message.2.2.2.2.2.2.2.1 ⟨shape.standard type_t.float_type [2, 3]⟩
      [shape.standard type_t.float_type [2, 3]] (by decide)]
    rfl

/-- C21 as stated fails for the unary and the binary family: `abs` called with
no input and `add` called with one input raise a message without the
operator's name. -/
theorem arity_error_message_counterexample :
    (unary_family.compute_shape unary_family.abs [] =
        Except.error (failure.exception
          "migraph/operators.hpp:36: Wrong number of arguments: expected 1 but given 0") ∧
      "migraph/operators.hpp:36: Wrong number of arguments: expected 1 but given 0" ≠
        make_source_context FILE 36 ++ ": " ++
          (unary_family.abs.name ++ ": " ++ "Wrong number of arguments: expected " ++
            toString 1 ++ " but given " ++ toString 0)) ∧
    (binary_family.compute_shape ⟨binary_kind.add, ⟨0⟩⟩
          [shape.standard type_t.float_type [2, 3]] =
        Except.error (failure.exception
          "migraph/operators.hpp:36: Wrong number of arguments: expected 2 but given 1") ∧
      "migraph/operators.hpp:36: Wrong number of arguments: expected 2 but given 1" ≠
        make_source_context FILE 36 ++ ": " ++
          ((⟨binary_kind.add, ⟨0⟩⟩ : binary_family).name ++ ": " ++
            "Wrong number of arguments: expected " ++ toString 2 ++ " but given " ++
            toString 1)) :=
  ⟨⟨by rfl, by decide⟩, ⟨by rfl, by decide⟩⟩

/-! ### The `same` checks -/

/-- On a non-empty list `check_shapes::same(f)` holds exactly when `f` takes on
every shape the value it takes on the first shape. -/
theorem same_iff {β : Type} [DecidableEq β] (name : String) (first : shape)
    (rest : List shape) (f : shape → β) :
    (check_shapes.mk (first :: rest) name).same f = true ↔
      ∀ s ∈ first :: rest, f s = f first := by
  simp [check_shapes.same, check_shapes.all_of]

/-- C22: on the empty shape list `same_shape`, `same_type`, `same_dims`,
`same_ndims` and `only_dims(n)` for every `n` return without raising; on a
non-empty list each of the `same_*` checks passes if and only if the
corresponding projection (the whole shape, the element type, the lens, the
rank) of every shape of the list equals that of the first shape. -/
theorem validators_vacuous_and_same (name : String) :
    ((check_shapes.mk [] name).same_shape = Except.ok (check_shapes.mk [] name) ∧
      (check_shapes.mk [] name).same_type = Except.ok (check_shapes.mk [] name) ∧
      (check_shapes.mk [] name).same_dims = Except.ok (check_shapes.mk [] name) ∧
      (check_shapes.mk [] name).same_ndims = Except.ok (check_shapes.mk [] name) ∧
      ∀ n : Nat, (check_shapes.mk [] name).only_dims n =
        Except.ok (check_shapes.mk [] name)) ∧
    ∀ (first : shape) (rest : List shape),
      (((check_shapes.mk (first :: rest) name).same_shape =
          Except.ok (check_shapes.mk (first :: rest) name)) ↔
        ∀ s ∈ first :: rest, s = first) ∧
      (((check_shapes.mk (first :: rest) name).same_type =
          Except.ok (check_shapes.mk (first :: rest) name)) ↔
        ∀ s ∈ first :: rest, s.type = first.type) ∧
      (((check_shapes.mk (first :: rest) name).same_dims =
          Except.ok (check_shapes.mk (first :: rest) name)) ↔
        ∀ s ∈ first :: rest, s.lens = first.lens) ∧
      (((check_shapes.mk (first :: rest) name).same_ndims =
          Except.ok (check_shapes.mk (first :: rest) name)) ↔
        ∀ s ∈ first :: rest, s.rank = first.rank) := by
  have key : ∀ {β : Type} [DecidableEq β] (first : shape) (rest : List shape)
      (f : shape → β) (line : Nat) (msg : String),
      ((if !(check_shapes.mk (first :: rest) name).same f then
          (MIGRAPH_THROW line msg : Except failure check_shapes)
        else Except.ok (check_shapes.mk (first :: rest) name)) =
          Except.ok (check_shapes.mk (first :: rest) name)) ↔
        ∀ s ∈ first :: rest, f s = f first := by
    intro β _ first rest f line msg
    rw [← same_iff name first rest f]
    cases hb : (check_shapes.mk (first :: rest) name).same f
    · simp [MIGRAPH_THROW]
    · simp
  refine ⟨⟨rfl, rfl, rfl, rfl, fun _ => rfl⟩, ?_⟩
  intro first rest
  exact ⟨key first rest (fun s => s) _ _, key first rest (fun s => s.type) _ _,
    key first rest (fun s => s.lens) _ _, key first rest (fun s => s.lens.length) _ _⟩

/-- C22 at a concrete input: two shapes of the same type and rank but different
lens pass `same_type` and `same_ndims` and fail `same_dims` and `same_shape`. -/
theorem validators_vacuous_and_same_witness :
    (check_shapes.mk [shape.standard type_t.float_type [2, 3],
        shape.standard type_t.float_type [3, 2]] "add").same_type =
      Except.ok (check_shapes.mk [shape.standard type_t.float_type [2, 3],
        shape.standard type_t.float_type [3, 2]] "add") ∧
    (check_shapes.mk [shape.standard type_t.float_type [2, 3],
        shape.standard type_t.float_type [3, 2]] "add").same_ndims =
      Except.ok (check_shapes.mk [shape.standard type_t.float_type [2, 3],
        shape.standard type_t.float_type [3, 2]] "add") ∧
    (check_shapes.mk [shape.standard type_t.float_type [2, 3],
        shape.standard type_t.float_type [3, 2]] "add").same_dims ≠
      Except.ok (check_shapes.mk [shape.standard type_t.float_type [2, 3],
        shape.standard type_t.float_type [3, 2]] "add") :=
  ⟨((validators_vacuous_and_same "add").2 _ _).2.1.2 (by decide),
    ((validators_vacuous_and_same "add").2 _ _).2.2.2.2 (by decide),
    fun h => absurd (((validators_vacuous_and_same "add").2 _ _).2.2.1.1 h) (by decide)⟩

/-! ### convolution and the channel count -/

/-- Replacing entry 1 of a vector leaves the other entries as they were. -/
theorem index_set_one (v : List Nat) (c i : Nat) (hi : i ≠ 1) :
    index (v.set 1 c) i = index v i := by
  unfold index
  simp [List.getD_eq_getElem?_getD, List.getElem?_set, Ne.symm hi]

/-- C23: `convolution::compute_shape` never relates the channel count of the
input to that of the kernel.  In every padding mode (and for every value of the
mode member), for all rank-4 inputs `x`, `w` of the same element type, the
outcome, success and resulting shape or failure, is the same for `x`, `w` and
for any `x'`, `w'` of the same element types (and any strides) whose lens are
those of `x`, `w` with `lens[1]` replaced by arbitrary values `c`, `c'`. -/
theorem convolution_ignores_channels (fp : fp_model) (op : convolution) (x w x' w' : shape)
    (c c' : Nat) (hx : x.rank = 4) (hw : w.rank = 4) (ht : x.type = w.type)
    (hx' : x'.type = x.type ∧ x'.lens = x.lens.set 1 c)
    (hw' : w'.type = w.type ∧ w'.lens = w.lens.set 1 c') :
    convolution.compute_shape fp op [x', w'] = convolution.compute_shape fp op [x, w] := by
  unfold shape.rank at hx hw
  have hxl : x'.lens.length = 4 := by rw [hx'.2, List.length_set]; exact hx
  have hwl : w'.lens.length = 4 := by rw [hw'.2, List.length_set]; exact hw
  have ht' : x'.type = w'.type := by rw [hx'.1, hw'.1]; exact ht
  rw [convolution_checks_pass fp op x' w' ht' hxl hwl,
    convolution_checks_pass fp op x w ht hx hw, hx'.1, hx'.2, hw'.2]
  simp only [index_set_one _ _ 0 (by decide), index_set_one _ _ 2 (by decide),
    index_set_one _ _ 3 (by decide)]

/-- C23 at a concrete input: the input `[1,3,32,32]` with the kernel
`[8,3,3,3]`, and with the kernel `[8,5,3,3]` whose channel count 5 does not
match the 3 channels of the input, give the same result; with padding, stride
and dilation `{1,1}` in the default mode it is `[1,8,32,32]`. -/
theorem convolution_ignores_channels_witness :
    convolution.compute_shape fp_ieee ⟨(1, 1), (1, 1), (1, 1), padding_mode_t.default_⟩
        [shape.standard type_t.float_type [1, 3, 32, 32],
          shape.standard type_t.float_type [8, 5, 3, 3]] =
      convolution.compute_shape fp_ieee ⟨(1, 1), (1, 1), (1, 1), padding_mode_t.default_⟩
        [shape.standard type_t.float_type [1, 3, 32, 32],
          shape.standard type_t.float_type [8, 3, 3, 3]] ∧
    convolution.compute_shape fp_ieee ⟨(1, 1), (1, 1), (1, 1), padding_mode_t.default_⟩
        [shape.standard type_t.float_type [1, 3, 32, 32],
          shape.standard type_t.float_type [8, 5, 3, 3]] =
      Except.ok (shape.standard type_t.float_type [1, 8, 32, 32]) :=
  ⟨convolution_ignores_channels fp_ieee ⟨(1, 1), (1, 1), (1, 1), padding_mode_t.default_⟩
      (shape.standard type_t.float_type [1, 3, 32, 32])
      (shape.standard type_t.float_type [8, 3, 3, 3])
      (shape.standard type_t.float_type [1, 3, 32, 32])
      (shape.standard type_t.float_type [8, 5, 3, 3]) 3 5 rfl rfl rfl
      ⟨rfl, by decide⟩ ⟨rfl, by decide⟩,
    by rfl⟩

end migraph
